import Mathlib

/-!
Shallow embedding of `src/q_ary_search.hpp` (namespace `ml::algorithm`).

The C++ code works on a random-access range `[begin, end)` through a pair
`{begin, length}`.  We model the range as a `List α` together with a start
index, so that C++ iterator `begin + i` becomes the index `i` into the list
and dereferencing becomes `elemAt`.  The `while` loop of each `_Q_ary_search`
is modelled with an explicit fuel parameter (the loop is a genuine `while`,
so a run that would not terminate is `none`); the search entry points run the
loop with fuel `a.length`, which is shown sufficient for the default
threshold.  The query value `q` and the predicate `pred` of the C++ code are
fused into a single boolean predicate `p = fun x => pred x q`.
-/

namespace QAry

variable {α : Type} [Inhabited α]

/-- Dereferencing `*(begin + i)` of the C++ code: element at index `i`. -/
def elemAt (a : List α) (i : Nat) : α :=
  a.getD i default

/-- Specification value: the first position at which `p` fails, i.e. the
number of leading elements of `a` satisfying `p` (the partition boundary).
Used only in theorem statements. -/
def boundary (p : α → Bool) : List α → Nat
  | [] => 0
  | x :: xs => if p x then boundary p xs + 1 else 0

/-- The range is partitioned with respect to `p` ("sorted with respect to
the supplied predicate"): every element satisfying `p` comes before every
element failing it. -/
def Partitioned (a : List α) (p : α → Bool) : Prop :=
  ∀ j, j < a.length → p (elemAt a j) = true → ∀ i, i ≤ j → p (elemAt a i) = true

/-- The range is sorted in non-decreasing order. -/
def SortedRange [LE α] (a : List α) : Prop :=
  ∀ j, j < a.length → ∀ i, i ≤ j → elemAt a i ≤ elemAt a j

/-- `r` is the first position in `[0, a.length)` at which `p` fails
(`a.length` when there is none). Used only in theorem statements. -/
def IsFirstFalse (a : List α) (p : α → Bool) (r : Nat) : Prop :=
  r ≤ a.length ∧ (∀ j, j < r → p (elemAt a j) = true) ∧
    (r < a.length → p (elemAt a r) = false)

/-- The final linear-search loop shared by all `_Q_ary_search` functions:
`end = begin + length; while (begin != end && pred(*begin, q)) ++begin;`. -/
def linearScan (a : List α) (p : α → Bool) : Nat → Nat → Nat
  | start, 0 => start
  | start, length + 1 =>
      if p (elemAt a start) then linearScan a p (start + 1) length else start

/-! ### Arity 2 -/

/-- Parameters used by `_2_ary_search` functions. -/
structure _2_ary_search_parameters_t where
  to_linear_threshold : Nat := 2 * 2

/-- The (default-initialized) global parameter object for arity 2. -/
def _2_ary_search_parameters : _2_ary_search_parameters_t := {}

/-- One iteration of the narrowing loop of `_2_ary_search`
(lines 41-50 of `q_ary_search.hpp`), returning the new `{begin, length}`. -/
def _2_step (a : List α) (p : α → Bool) (start length : Nat) : Nat × Nat :=
  let fragment_length := length / 2
  let begin_1 := start + fragment_length
  if p (elemAt a begin_1) then
    (begin_1, length - fragment_length)
  else
    (start, fragment_length)

/-- The narrowing `while` loop of `_2_ary_search`, with explicit fuel. -/
def _2_loop (thr : Nat) (a : List α) (p : α → Bool) :
    Nat → Nat → Nat → Option (Nat × Nat)
  | 0, start, length =>
      if thr ≤ length then none else some (start, length)
  | fuel + 1, start, length =>
      if thr ≤ length then
        _2_loop thr a p fuel (_2_step a p start length).1 (_2_step a p start length).2
      else
        some (start, length)

/-- `_2_ary_search(begin, end, q, pred)`: narrowing loop followed by the
linear search; returns the index of the returned iterator. -/
def _2_ary_search (ps : _2_ary_search_parameters_t) (a : List α) (p : α → Bool) :
    Option Nat :=
  match _2_loop ps.to_linear_threshold a p a.length 0 a.length with
  | none => none
  | some sl => some (linearScan a p sl.1 sl.2)

/-- `_2_ary_lower_bound`: `_2_ary_search` with `std::less`. -/
def _2_ary_lower_bound [LinearOrder α] (a : List α) (q : α) : Option Nat :=
  _2_ary_search _2_ary_search_parameters a (fun x => decide (x < q))

/-- `_2_ary_upper_bound`: `_2_ary_search` with `std::less_equal`. -/
def _2_ary_upper_bound [LinearOrder α] (a : List α) (q : α) : Option Nat :=
  _2_ary_search _2_ary_search_parameters a (fun x => decide (x ≤ q))

/-- The `bool`-returning `_2_ary_search` overload (membership test):
`result != end && !(q < *result)` on the lower-bound result. -/
def _2_ary_contains [LinearOrder α] (a : List α) (q : α) : Option Bool :=
  match _2_ary_lower_bound a q with
  | none => none
  | some r => some (decide (r ≠ a.length) && !(decide (q < elemAt a r)))

/-! ### Arity 3 -/

/-- Parameters used by `_3_ary_search` functions. -/
structure _3_ary_search_parameters_t where
  to_linear_threshold : Nat := 3 * 2

/-- The (default-initialized) global parameter object for arity 3. -/
def _3_ary_search_parameters : _3_ary_search_parameters_t := {}

/-- One iteration of the narrowing loop of `_3_ary_search`
(lines 100-114 of `q_ary_search.hpp`). -/
def _3_step (a : List α) (p : α → Bool) (start length : Nat) : Nat × Nat :=
  let fragment_length := length / 3
  let begin_1 := start + fragment_length
  if p (elemAt a begin_1) then
    let begin_2 := begin_1 + fragment_length
    if p (elemAt a begin_2) then
      (begin_2, length - 2 * fragment_length)
    else
      (begin_1, fragment_length)
  else
    (start, fragment_length)

/-- The narrowing `while` loop of `_3_ary_search`, with explicit fuel. -/
def _3_loop (thr : Nat) (a : List α) (p : α → Bool) :
    Nat → Nat → Nat → Option (Nat × Nat)
  | 0, start, length =>
      if thr ≤ length then none else some (start, length)
  | fuel + 1, start, length =>
      if thr ≤ length then
        _3_loop thr a p fuel (_3_step a p start length).1 (_3_step a p start length).2
      else
        some (start, length)

/-- `_3_ary_search(begin, end, q, pred)`. -/
def _3_ary_search (ps : _3_ary_search_parameters_t) (a : List α) (p : α → Bool) :
    Option Nat :=
  match _3_loop ps.to_linear_threshold a p a.length 0 a.length with
  | none => none
  | some sl => some (linearScan a p sl.1 sl.2)

/-- `_3_ary_lower_bound`: `_3_ary_search` with `std::less`. -/
def _3_ary_lower_bound [LinearOrder α] (a : List α) (q : α) : Option Nat :=
  _3_ary_search _3_ary_search_parameters a (fun x => decide (x < q))

/-- `_3_ary_upper_bound`: `_3_ary_search` with `std::less_equal`. -/
def _3_ary_upper_bound [LinearOrder α] (a : List α) (q : α) : Option Nat :=
  _3_ary_search _3_ary_search_parameters a (fun x => decide (x ≤ q))

/-- The `bool`-returning `_3_ary_search` overload (membership test). -/
def _3_ary_contains [LinearOrder α] (a : List α) (q : α) : Option Bool :=
  match _3_ary_lower_bound a q with
  | none => none
  | some r => some (decide (r ≠ a.length) && !(decide (q < elemAt a r)))

/-! ### Arity 4 -/

/-- Parameters used by `_4_ary_search` functions. -/
structure _4_ary_search_parameters_t where
  to_linear_threshold : Nat := 4 * 2

/-- The (default-initialized) global parameter object for arity 4. -/
def _4_ary_search_parameters : _4_ary_search_parameters_t := {}

/-- One iteration of the narrowing loop of `_4_ary_search`
(lines 164-183 of `q_ary_search.hpp`). -/
def _4_step (a : List α) (p : α → Bool) (start length : Nat) : Nat × Nat :=
  let fragment_length := length / 4
  let begin_1 := start + fragment_length
  if p (elemAt a begin_1) then
    let begin_2 := begin_1 + fragment_length
    if p (elemAt a begin_2) then
      let begin_3 := begin_2 + fragment_length
      if p (elemAt a begin_3) then
        (begin_3, length - 3 * fragment_length)
      else
        (begin_2, fragment_length)
    else
      (begin_1, fragment_length)
  else
    (start, fragment_length)

/-- The narrowing `while` loop of `_4_ary_search`, with explicit fuel. -/
def _4_loop (thr : Nat) (a : List α) (p : α → Bool) :
    Nat → Nat → Nat → Option (Nat × Nat)
  | 0, start, length =>
      if thr ≤ length then none else some (start, length)
  | fuel + 1, start, length =>
      if thr ≤ length then
        _4_loop thr a p fuel (_4_step a p start length).1 (_4_step a p start length).2
      else
        some (start, length)

/-- `_4_ary_search(begin, end, q, pred)`. -/
def _4_ary_search (ps : _4_ary_search_parameters_t) (a : List α) (p : α → Bool) :
    Option Nat :=
  match _4_loop ps.to_linear_threshold a p a.length 0 a.length with
  | none => none
  | some sl => some (linearScan a p sl.1 sl.2)

/-- `_4_ary_lower_bound`: `_4_ary_search` with `std::less`. -/
def _4_ary_lower_bound [LinearOrder α] (a : List α) (q : α) : Option Nat :=
  _4_ary_search _4_ary_search_parameters a (fun x => decide (x < q))

/-- `_4_ary_upper_bound`: `_4_ary_search` with `std::less_equal`. -/
def _4_ary_upper_bound [LinearOrder α] (a : List α) (q : α) : Option Nat :=
  _4_ary_search _4_ary_search_parameters a (fun x => decide (x ≤ q))

/-- The `bool`-returning `_4_ary_search` overload (membership test). -/
def _4_ary_contains [LinearOrder α] (a : List α) (q : α) : Option Bool :=
  match _4_ary_lower_bound a q with
  | none => none
  | some r => some (decide (r ≠ a.length) && !(decide (q < elemAt a r)))

/-! ### Arity 5 -/

/-- Parameters used by `_5_ary_search` functions. -/
structure _5_ary_search_parameters_t where
  to_linear_threshold : Nat := 5 * 2

/-- The (default-initialized) global parameter object for arity 5. -/
def _5_ary_search_parameters : _5_ary_search_parameters_t := {}

/-- One iteration of the narrowing loop of `_5_ary_search`
(lines 233-257 of `q_ary_search.hpp`). -/
def _5_step (a : List α) (p : α → Bool) (start length : Nat) : Nat × Nat :=
  let fragment_length := length / 5
  let begin_1 := start + fragment_length
  if p (elemAt a begin_1) then
    let begin_2 := begin_1 + fragment_length
    if p (elemAt a begin_2) then
      let begin_3 := begin_2 + fragment_length
      if p (elemAt a begin_3) then
        let begin_4 := begin_3 + fragment_length
        if p (elemAt a begin_4) then
          (begin_4, length - 4 * fragment_length)
        else
          (begin_3, fragment_length)
      else
        (begin_2, fragment_length)
    else
      (begin_1, fragment_length)
  else
    (start, fragment_length)

/-- The narrowing `while` loop of `_5_ary_search`, with explicit fuel. -/
def _5_loop (thr : Nat) (a : List α) (p : α → Bool) :
    Nat → Nat → Nat → Option (Nat × Nat)
  | 0, start, length =>
      if thr ≤ length then none else some (start, length)
  | fuel + 1, start, length =>
      if thr ≤ length then
        _5_loop thr a p fuel (_5_step a p start length).1 (_5_step a p start length).2
      else
        some (start, length)

/-- `_5_ary_search(begin, end, q, pred)`. -/
def _5_ary_search (ps : _5_ary_search_parameters_t) (a : List α) (p : α → Bool) :
    Option Nat :=
  match _5_loop ps.to_linear_threshold a p a.length 0 a.length with
  | none => none
  | some sl => some (linearScan a p sl.1 sl.2)

/-- `_5_ary_lower_bound`: `_5_ary_search` with `std::less`. -/
def _5_ary_lower_bound [LinearOrder α] (a : List α) (q : α) : Option Nat :=
  _5_ary_search _5_ary_search_parameters a (fun x => decide (x < q))

/-- `_5_ary_upper_bound`: `_5_ary_search` with `std::less_equal`. -/
def _5_ary_upper_bound [LinearOrder α] (a : List α) (q : α) : Option Nat :=
  _5_ary_search _5_ary_search_parameters a (fun x => decide (x ≤ q))

/-- The `bool`-returning `_5_ary_search` overload (membership test). -/
def _5_ary_contains [LinearOrder α] (a : List α) (q : α) : Option Bool :=
  match _5_ary_lower_bound a q with
  | none => none
  | some r => some (decide (r ≠ a.length) && !(decide (q < elemAt a r)))

/-! ### Arity 6 -/

/-- Parameters used by `_6_ary_search` functions. -/
structure _6_ary_search_parameters_t where
  to_linear_threshold : Nat := 6 * 2

/-- The (default-initialized) global parameter object for arity 6. -/
def _6_ary_search_parameters : _6_ary_search_parameters_t := {}

/-- One iteration of the narrowing loop of `_6_ary_search`
(lines 307-336 of `q_ary_search.hpp`). -/
def _6_step (a : List α) (p : α → Bool) (start length : Nat) : Nat × Nat :=
  let fragment_length := length / 6
  let begin_1 := start + fragment_length
  if p (elemAt a begin_1) then
    let begin_2 := begin_1 + fragment_length
    if p (elemAt a begin_2) then
      let begin_3 := begin_2 + fragment_length
      if p (elemAt a begin_3) then
        let begin_4 := begin_3 + fragment_length
        if p (elemAt a begin_4) then
          let begin_5 := begin_4 + fragment_length
          if p (elemAt a begin_5) then
            (begin_5, length - 5 * fragment_length)
          else
            (begin_4, fragment_length)
        else
          (begin_3, fragment_length)
      else
        (begin_2, fragment_length)
    else
      (begin_1, fragment_length)
  else
    (start, fragment_length)

/-- The narrowing `while` loop of `_6_ary_search`, with explicit fuel. -/
def _6_loop (thr : Nat) (a : List α) (p : α → Bool) :
    Nat → Nat → Nat → Option (Nat × Nat)
  | 0, start, length =>
      if thr ≤ length then none else some (start, length)
  | fuel + 1, start, length =>
      if thr ≤ length then
        _6_loop thr a p fuel (_6_step a p start length).1 (_6_step a p start length).2
      else
        some (start, length)

/-- `_6_ary_search(begin, end, q, pred)`. -/
def _6_ary_search (ps : _6_ary_search_parameters_t) (a : List α) (p : α → Bool) :
    Option Nat :=
  match _6_loop ps.to_linear_threshold a p a.length 0 a.length with
  | none => none
  | some sl => some (linearScan a p sl.1 sl.2)

/-- `_6_ary_lower_bound`: `_6_ary_search` with `std::less`. -/
def _6_ary_lower_bound [LinearOrder α] (a : List α) (q : α) : Option Nat :=
  _6_ary_search _6_ary_search_parameters a (fun x => decide (x < q))

/-- `_6_ary_upper_bound`: `_6_ary_search` with `std::less_equal`. -/
def _6_ary_upper_bound [LinearOrder α] (a : List α) (q : α) : Option Nat :=
  _6_ary_search _6_ary_search_parameters a (fun x => decide (x ≤ q))

/-- The `bool`-returning `_6_ary_search` overload (membership test). -/
def _6_ary_contains [LinearOrder α] (a : List α) (q : α) : Option Bool :=
  match _6_ary_lower_bound a q with
  | none => none
  | some r => some (decide (r ≠ a.length) && !(decide (q < elemAt a r)))

/-! ### Reference bounds (for the agreement property) -/

/-- Modelled from the spec: the reference binary-search lower bound — the
first position whose element is not less than the query (the whole length
when there is none). -/
def refLowerBound [LinearOrder α] (q : α) : List α → Nat
  | [] => 0
  | x :: xs => if x < q then refLowerBound q xs + 1 else 0

/-- Modelled from the spec: the reference binary-search upper bound — the
first position whose element is strictly greater than the query (the whole
length when there is none). -/
def refUpperBound [LinearOrder α] (q : α) : List α → Nat
  | [] => 0
  | x :: xs => if x ≤ q then refUpperBound q xs + 1 else 0

/-! ### Read traces: the positions dereferenced by each search

`_Q_stepReads` lists, in evaluation order, the probe positions actually
dereferenced by one iteration of the `_Q_ary_search` narrowing loop (the
cascade stops probing at the first failing probe); `scanReads` lists the
positions dereferenced by the final linear search; `_Q_searchReads` is the
complete read trace of a call to `_Q_ary_search`. -/

/-- Probe positions dereferenced by one `_2_ary_search` iteration. -/
def _2_stepReads (a : List α) (p : α → Bool) (start length : Nat) : List Nat :=
  let fragment_length := length / 2
  let begin_1 := start + fragment_length
  [begin_1]

/-- Probe positions dereferenced by one `_3_ary_search` iteration. -/
def _3_stepReads (a : List α) (p : α → Bool) (start length : Nat) : List Nat :=
  let fragment_length := length / 3
  let begin_1 := start + fragment_length
  if p (elemAt a begin_1) then
    let begin_2 := begin_1 + fragment_length
    [begin_1, begin_2]
  else
    [begin_1]

/-- Probe positions dereferenced by one `_4_ary_search` iteration. -/
def _4_stepReads (a : List α) (p : α → Bool) (start length : Nat) : List Nat :=
  let fragment_length := length / 4
  let begin_1 := start + fragment_length
  if p (elemAt a begin_1) then
    let begin_2 := begin_1 + fragment_length
    if p (elemAt a begin_2) then
      let begin_3 := begin_2 + fragment_length
      [begin_1, begin_2, begin_3]
    else
      [begin_1, begin_2]
  else
    [begin_1]

/-- Probe positions dereferenced by one `_5_ary_search` iteration. -/
def _5_stepReads (a : List α) (p : α → Bool) (start length : Nat) : List Nat :=
  let fragment_length := length / 5
  let begin_1 := start + fragment_length
  if p (elemAt a begin_1) then
    let begin_2 := begin_1 + fragment_length
    if p (elemAt a begin_2) then
      let begin_3 := begin_2 + fragment_length
      if p (elemAt a begin_3) then
        let begin_4 := begin_3 + fragment_length
        [begin_1, begin_2, begin_3, begin_4]
      else
        [begin_1, begin_2, begin_3]
    else
      [begin_1, begin_2]
  else
    [begin_1]

/-- Probe positions dereferenced by one `_6_ary_search` iteration. -/
def _6_stepReads (a : List α) (p : α → Bool) (start length : Nat) : List Nat :=
  let fragment_length := length / 6
  let begin_1 := start + fragment_length
  if p (elemAt a begin_1) then
    let begin_2 := begin_1 + fragment_length
    if p (elemAt a begin_2) then
      let begin_3 := begin_2 + fragment_length
      if p (elemAt a begin_3) then
        let begin_4 := begin_3 + fragment_length
        if p (elemAt a begin_4) then
          let begin_5 := begin_4 + fragment_length
          [begin_1, begin_2, begin_3, begin_4, begin_5]
        else
          [begin_1, begin_2, begin_3, begin_4]
      else
        [begin_1, begin_2, begin_3]
    else
      [begin_1, begin_2]
  else
    [begin_1]

/-- Positions dereferenced by the final linear search. -/
def scanReads (a : List α) (p : α → Bool) : Nat → Nat → List Nat
  | _, 0 => []
  | start, length + 1 =>
      if p (elemAt a start) then start :: scanReads a p (start + 1) length
      else [start]

/-- Read trace of the narrowing loop of `_2_ary_search`. -/
def _2_loopReads (thr : Nat) (a : List α) (p : α → Bool) :
    Nat → Nat → Nat → List Nat
  | 0, _, _ => []
  | fuel + 1, start, length =>
      if thr ≤ length then
        _2_stepReads a p start length ++
          _2_loopReads thr a p fuel (_2_step a p start length).1
            (_2_step a p start length).2
      else []

/-- Read trace of the narrowing loop of `_3_ary_search`. -/
def _3_loopReads (thr : Nat) (a : List α) (p : α → Bool) :
    Nat → Nat → Nat → List Nat
  | 0, _, _ => []
  | fuel + 1, start, length =>
      if thr ≤ length then
        _3_stepReads a p start length ++
          _3_loopReads thr a p fuel (_3_step a p start length).1
            (_3_step a p start length).2
      else []

/-- Read trace of the narrowing loop of `_4_ary_search`. -/
def _4_loopReads (thr : Nat) (a : List α) (p : α → Bool) :
    Nat → Nat → Nat → List Nat
  | 0, _, _ => []
  | fuel + 1, start, length =>
      if thr ≤ length then
        _4_stepReads a p start length ++
          _4_loopReads thr a p fuel (_4_step a p start length).1
            (_4_step a p start length).2
      else []

/-- Read trace of the narrowing loop of `_5_ary_search`. -/
def _5_loopReads (thr : Nat) (a : List α) (p : α → Bool) :
    Nat → Nat → Nat → List Nat
  | 0, _, _ => []
  | fuel + 1, start, length =>
      if thr ≤ length then
        _5_stepReads a p start length ++
          _5_loopReads thr a p fuel (_5_step a p start length).1
            (_5_step a p start length).2
      else []

/-- Read trace of the narrowing loop of `_6_ary_search`. -/
def _6_loopReads (thr : Nat) (a : List α) (p : α → Bool) :
    Nat → Nat → Nat → List Nat
  | 0, _, _ => []
  | fuel + 1, start, length =>
      if thr ≤ length then
        _6_stepReads a p start length ++
          _6_loopReads thr a p fuel (_6_step a p start length).1
            (_6_step a p start length).2
      else []

/-- Complete read trace of a `_2_ary_search` call. -/
def _2_searchReads (ps : _2_ary_search_parameters_t) (a : List α)
    (p : α → Bool) : List Nat :=
  _2_loopReads ps.to_linear_threshold a p a.length 0 a.length ++
    (match _2_loop ps.to_linear_threshold a p a.length 0 a.length with
     | none => []
     | some sl => scanReads a p sl.1 sl.2)

/-- Complete read trace of a `_3_ary_search` call. -/
def _3_searchReads (ps : _3_ary_search_parameters_t) (a : List α)
    (p : α → Bool) : List Nat :=
  _3_loopReads ps.to_linear_threshold a p a.length 0 a.length ++
    (match _3_loop ps.to_linear_threshold a p a.length 0 a.length with
     | none => []
     | some sl => scanReads a p sl.1 sl.2)

/-- Complete read trace of a `_4_ary_search` call. -/
def _4_searchReads (ps : _4_ary_search_parameters_t) (a : List α)
    (p : α → Bool) : List Nat :=
  _4_loopReads ps.to_linear_threshold a p a.length 0 a.length ++
    (match _4_loop ps.to_linear_threshold a p a.length 0 a.length with
     | none => []
     | some sl => scanReads a p sl.1 sl.2)

/-- Complete read trace of a `_5_ary_search` call. -/
def _5_searchReads (ps : _5_ary_search_parameters_t) (a : List α)
    (p : α → Bool) : List Nat :=
  _5_loopReads ps.to_linear_threshold a p a.length 0 a.length ++
    (match _5_loop ps.to_linear_threshold a p a.length 0 a.length with
     | none => []
     | some sl => scanReads a p sl.1 sl.2)

/-- Complete read trace of a `_6_ary_search` call. -/
def _6_searchReads (ps : _6_ary_search_parameters_t) (a : List α)
    (p : α → Bool) : List Nat :=
  _6_loopReads ps.to_linear_threshold a p a.length 0 a.length ++
    (match _6_loop ps.to_linear_threshold a p a.length 0 a.length with
     | none => []
     | some sl => scanReads a p sl.1 sl.2)

/-! ### Decidability of the hypotheses (used by concrete witnesses) -/

instance (a : List α) (p : α → Bool) : Decidable (Partitioned a p) := by
  unfold Partitioned; infer_instance

instance [LE α] [DecidableRel (α := α) (· ≤ ·)] (a : List α) :
    Decidable (SortedRange a) := by
  unfold SortedRange; infer_instance

/-! ### Properties of the specification values -/

lemma elemAt_cons_succ (x : α) (xs : List α) (j : Nat) :
    elemAt (x :: xs) (j + 1) = elemAt xs j := rfl

lemma boundary_le_length (p : α → Bool) : ∀ a : List α, boundary p a ≤ a.length
  | [] => by simp [boundary]
  | x :: xs => by
      simp only [boundary, List.length_cons]
      split
      · have := boundary_le_length p xs
        omega
      · omega

lemma elemAt_true_of_lt_boundary (p : α → Bool) :
    ∀ (a : List α) (j : Nat), j < boundary p a → p (elemAt a j) = true
  | [], j, h => by simp [boundary] at h
  | x :: xs, j, h => by
      simp only [boundary] at h
      by_cases hx : p x
      · cases j with
        | zero => exact hx
        | succ j =>
            rw [if_pos hx] at h
            rw [elemAt_cons_succ]
            exact elemAt_true_of_lt_boundary p xs j (by omega)
      · rw [if_neg hx] at h
        omega

lemma elemAt_boundary_false (p : α → Bool) :
    ∀ a : List α, boundary p a < a.length → p (elemAt a (boundary p a)) = false
  | [], h => by simp at h
  | x :: xs, h => by
      simp only [boundary, List.length_cons] at h ⊢
      by_cases hx : p x
      · rw [if_pos hx] at h ⊢
        rw [elemAt_cons_succ]
        exact elemAt_boundary_false p xs (by omega)
      · rw [if_neg hx] at h ⊢
        simpa using hx

lemma boundary_le_of_elemAt_false (p : α → Bool) (a : List α) (j : Nat)
    (hj : j < a.length) (hf : p (elemAt a j) = false) : boundary p a ≤ j := by
  by_contra h
  have := elemAt_true_of_lt_boundary p a j (by omega)
  simp [this] at hf

lemma lt_boundary_of_elemAt_true (a : List α) (p : α → Bool)
    (hpart : Partitioned a p) (j : Nat) (hj : j < a.length)
    (ht : p (elemAt a j) = true) : j < boundary p a := by
  by_contra h
  have hblt : boundary p a < a.length := by omega
  have hbf := elemAt_boundary_false p a hblt
  have := hpart j hj ht (boundary p a) (by omega)
  simp [this] at hbf

lemma isFirstFalse_boundary (a : List α) (p : α → Bool) :
    IsFirstFalse a p (boundary p a) :=
  ⟨boundary_le_length p a,
   fun j hj => elemAt_true_of_lt_boundary p a j hj,
   fun h => elemAt_boundary_false p a h⟩

lemma boundary_eq_length_of_all_true (a : List α) (p : α → Bool)
    (h : ∀ j, j < a.length → p (elemAt a j) = true) : boundary p a = a.length := by
  have hle := boundary_le_length p a
  by_contra hne
  have hlt : boundary p a < a.length := by omega
  have hf := elemAt_boundary_false p a hlt
  have ht := h _ hlt
  simp [ht] at hf

lemma linearScan_eq_boundary (a : List α) (p : α → Bool) :
    ∀ (length start : Nat), start ≤ boundary p a → boundary p a ≤ start + length →
      start + length ≤ a.length → linearScan a p start length = boundary p a
  | 0, start, h1, h2, _ => by
      simp only [linearScan]
      omega
  | length + 1, start, h1, h2, h3 => by
      by_cases he : start = boundary p a
      · have hf : p (elemAt a start) = false := by
          rw [he]
          exact elemAt_boundary_false p a (by omega)
        simp [linearScan, hf]
        exact he
      · have hlt : start < boundary p a := by omega
        have ht := elemAt_true_of_lt_boundary p a start hlt
        simp only [linearScan, ht, if_true]
        exact linearScan_eq_boundary a p length (start + 1) (by omega) (by omega)
          (by omega)

/-! ### Arity 2: loop invariants and functional correctness -/

lemma _2_step_window (a : List α) (p : α → Bool) (start length : Nat)
    (h : 4 ≤ length) :
    start ≤ (_2_step a p start length).1 ∧
    (_2_step a p start length).1 + (_2_step a p start length).2 ≤ start + length ∧
    (_2_step a p start length).2 < length := by
  unfold _2_step
  by_cases h1 : p (elemAt a (start + length / 2)) = true <;> simp [h1] <;> omega

lemma _2_step_boundary (a : List α) (p : α → Bool) (hpart : Partitioned a p)
    (start length : Nat) (h : 4 ≤ length) (hw : start + length ≤ a.length)
    (h1 : start ≤ boundary p a) (h2 : boundary p a ≤ start + length) :
    (_2_step a p start length).1 ≤ boundary p a ∧
    boundary p a ≤ (_2_step a p start length).1 + (_2_step a p start length).2 := by
  unfold _2_step
  by_cases hp1 : p (elemAt a (start + length / 2)) = true
  · have := lt_boundary_of_elemAt_true a p hpart (start + length / 2) (by omega) hp1
    simp [hp1]
    omega
  · have := boundary_le_of_elemAt_false p a (start + length / 2) (by omega)
      (by simpa using hp1)
    simp [hp1]
    omega

lemma _2_loop_sound (a : List α) (p : α → Bool) (hpart : Partitioned a p) :
    ∀ (fuel start length : Nat), length ≤ fuel → start + length ≤ a.length →
      start ≤ boundary p a → boundary p a ≤ start + length →
      ∃ s l, _2_loop 4 a p fuel start length = some (s, l) ∧
        s + l ≤ a.length ∧ s ≤ boundary p a ∧ boundary p a ≤ s + l
  | 0, start, length, hf, hw, h1, h2 => by
      have hn : ¬ (4 ≤ length) := by omega
      exact ⟨start, length, by simp [_2_loop, hn], hw, h1, h2⟩
  | fuel + 1, start, length, hf, hw, h1, h2 => by
      by_cases hth : 4 ≤ length
      · obtain ⟨hs, hsw, hsl⟩ := _2_step_window a p start length hth
        obtain ⟨hb1, hb2⟩ := _2_step_boundary a p hpart start length hth hw h1 h2
        obtain ⟨s, l, heq, hh⟩ := _2_loop_sound a p hpart fuel
          (_2_step a p start length).1 (_2_step a p start length).2
          (by omega) (by omega) hb1 hb2
        exact ⟨s, l, by simp [_2_loop, hth, heq], hh⟩
      · exact ⟨start, length, by simp [_2_loop, hth], hw, h1, h2⟩

lemma _2_search_eq (a : List α) (p : α → Bool) (hpart : Partitioned a p) :
    _2_ary_search _2_ary_search_parameters a p = some (boundary p a) := by
  obtain ⟨s, l, heq, hw, h1, h2⟩ := _2_loop_sound a p hpart a.length 0 a.length
    le_rfl (by omega) (by omega) (by have := boundary_le_length p a; omega)
  unfold _2_ary_search
  rw [show _2_ary_search_parameters.to_linear_threshold = 4 from rfl, heq]
  exact congrArg some (linearScan_eq_boundary a p l s h1 h2 hw)

/-! ### Arity 3: loop invariants and functional correctness -/

lemma _3_step_window (a : List α) (p : α → Bool) (start length : Nat)
    (h : 6 ≤ length) :
    start ≤ (_3_step a p start length).1 ∧
    (_3_step a p start length).1 + (_3_step a p start length).2 ≤ start + length ∧
    (_3_step a p start length).2 < length := by
  unfold _3_step
  by_cases h1 : p (elemAt a (start + length / 3)) = true <;>
    by_cases h2 : p (elemAt a (start + length / 3 + length / 3)) = true <;>
    simp [h1, h2] <;> omega

lemma _3_step_boundary (a : List α) (p : α → Bool) (hpart : Partitioned a p)
    (start length : Nat) (h : 6 ≤ length) (hw : start + length ≤ a.length)
    (h1 : start ≤ boundary p a) (h2 : boundary p a ≤ start + length) :
    (_3_step a p start length).1 ≤ boundary p a ∧
    boundary p a ≤ (_3_step a p start length).1 + (_3_step a p start length).2 := by
  unfold _3_step
  by_cases hp1 : p (elemAt a (start + length / 3)) = true
  · have ha := lt_boundary_of_elemAt_true a p hpart (start + length / 3)
      (by omega) hp1
    by_cases hp2 : p (elemAt a (start + length / 3 + length / 3)) = true
    · have hb := lt_boundary_of_elemAt_true a p hpart
        (start + length / 3 + length / 3) (by omega) hp2
      simp [hp1, hp2]
      omega
    · have hb := boundary_le_of_elemAt_false p a
        (start + length / 3 + length / 3) (by omega) (by simpa using hp2)
      simp [hp1, hp2]
      omega
  · have hb := boundary_le_of_elemAt_false p a (start + length / 3) (by omega)
      (by simpa using hp1)
    simp [hp1]
    omega

lemma _3_loop_sound (a : List α) (p : α → Bool) (hpart : Partitioned a p) :
    ∀ (fuel start length : Nat), length ≤ fuel → start + length ≤ a.length →
      start ≤ boundary p a → boundary p a ≤ start + length →
      ∃ s l, _3_loop 6 a p fuel start length = some (s, l) ∧
        s + l ≤ a.length ∧ s ≤ boundary p a ∧ boundary p a ≤ s + l
  | 0, start, length, hf, hw, h1, h2 => by
      have hn : ¬ (6 ≤ length) := by omega
      exact ⟨start, length, by simp [_3_loop, hn], hw, h1, h2⟩
  | fuel + 1, start, length, hf, hw, h1, h2 => by
      by_cases hth : 6 ≤ length
      · obtain ⟨hs, hsw, hsl⟩ := _3_step_window a p start length hth
        obtain ⟨hb1, hb2⟩ := _3_step_boundary a p hpart start length hth hw h1 h2
        obtain ⟨s, l, heq, hh⟩ := _3_loop_sound a p hpart fuel
          (_3_step a p start length).1 (_3_step a p start length).2
          (by omega) (by omega) hb1 hb2
        exact ⟨s, l, by simp [_3_loop, hth, heq], hh⟩
      · exact ⟨start, length, by simp [_3_loop, hth], hw, h1, h2⟩

lemma _3_search_eq (a : List α) (p : α → Bool) (hpart : Partitioned a p) :
    _3_ary_search _3_ary_search_parameters a p = some (boundary p a) := by
  obtain ⟨s, l, heq, hw, h1, h2⟩ := _3_loop_sound a p hpart a.length 0 a.length
    le_rfl (by omega) (by omega) (by have := boundary_le_length p a; omega)
  unfold _3_ary_search
  rw [show _3_ary_search_parameters.to_linear_threshold = 6 from rfl, heq]
  exact congrArg some (linearScan_eq_boundary a p l s h1 h2 hw)

/-! ### Arity 4: loop invariants and functional correctness -/

lemma _4_step_window (a : List α) (p : α → Bool) (start length : Nat)
    (h : 8 ≤ length) :
    start ≤ (_4_step a p start length).1 ∧
    (_4_step a p start length).1 + (_4_step a p start length).2 ≤ start + length ∧
    (_4_step a p start length).2 < length := by
  unfold _4_step
  by_cases h1 : p (elemAt a (start + length / 4)) = true <;>
    by_cases h2 : p (elemAt a (start + length / 4 + length / 4)) = true <;>
    by_cases h3 : p (elemAt a (start + length / 4 + length / 4 + length / 4)) = true <;>
    simp [h1, h2, h3] <;> omega

lemma _4_step_boundary (a : List α) (p : α → Bool) (hpart : Partitioned a p)
    (start length : Nat) (h : 8 ≤ length) (hw : start + length ≤ a.length)
    (h1 : start ≤ boundary p a) (h2 : boundary p a ≤ start + length) :
    (_4_step a p start length).1 ≤ boundary p a ∧
    boundary p a ≤ (_4_step a p start length).1 + (_4_step a p start length).2 := by
  unfold _4_step
  by_cases hp1 : p (elemAt a (start + length / 4)) = true
  · have ha := lt_boundary_of_elemAt_true a p hpart (start + length / 4)
      (by omega) hp1
    by_cases hp2 : p (elemAt a (start + length / 4 + length / 4)) = true
    · have hb := lt_boundary_of_elemAt_true a p hpart
        (start + length / 4 + length / 4) (by omega) hp2
      by_cases hp3 : p (elemAt a (start + length / 4 + length / 4 + length / 4)) = true
      · have hc := lt_boundary_of_elemAt_true a p hpart
          (start + length / 4 + length / 4 + length / 4) (by omega) hp3
        simp [hp1, hp2, hp3]
        omega
      · have hc := boundary_le_of_elemAt_false p a
          (start + length / 4 + length / 4 + length / 4) (by omega)
          (by simpa using hp3)
        simp [hp1, hp2, hp3]
        omega
    · have hb := boundary_le_of_elemAt_false p a
        (start + length / 4 + length / 4) (by omega) (by simpa using hp2)
      simp [hp1, hp2]
      omega
  · have hb := boundary_le_of_elemAt_false p a (start + length / 4) (by omega)
      (by simpa using hp1)
    simp [hp1]
    omega

lemma _4_loop_sound (a : List α) (p : α → Bool) (hpart : Partitioned a p) :
    ∀ (fuel start length : Nat), length ≤ fuel → start + length ≤ a.length →
      start ≤ boundary p a → boundary p a ≤ start + length →
      ∃ s l, _4_loop 8 a p fuel start length = some (s, l) ∧
        s + l ≤ a.length ∧ s ≤ boundary p a ∧ boundary p a ≤ s + l
  | 0, start, length, hf, hw, h1, h2 => by
      have hn : ¬ (8 ≤ length) := by omega
      exact ⟨start, length, by simp [_4_loop, hn], hw, h1, h2⟩
  | fuel + 1, start, length, hf, hw, h1, h2 => by
      by_cases hth : 8 ≤ length
      · obtain ⟨hs, hsw, hsl⟩ := _4_step_window a p start length hth
        obtain ⟨hb1, hb2⟩ := _4_step_boundary a p hpart start length hth hw h1 h2
        obtain ⟨s, l, heq, hh⟩ := _4_loop_sound a p hpart fuel
          (_4_step a p start length).1 (_4_step a p start length).2
          (by omega) (by omega) hb1 hb2
        exact ⟨s, l, by simp [_4_loop, hth, heq], hh⟩
      · exact ⟨start, length, by simp [_4_loop, hth], hw, h1, h2⟩

lemma _4_search_eq (a : List α) (p : α → Bool) (hpart : Partitioned a p) :
    _4_ary_search _4_ary_search_parameters a p = some (boundary p a) := by
  obtain ⟨s, l, heq, hw, h1, h2⟩ := _4_loop_sound a p hpart a.length 0 a.length
    le_rfl (by omega) (by omega) (by have := boundary_le_length p a; omega)
  unfold _4_ary_search
  rw [show _4_ary_search_parameters.to_linear_threshold = 8 from rfl, heq]
  exact congrArg some (linearScan_eq_boundary a p l s h1 h2 hw)

/-! ### Arity 5: loop invariants and functional correctness -/

lemma _5_step_window (a : List α) (p : α → Bool) (start length : Nat)
    (h : 10 ≤ length) :
    start ≤ (_5_step a p start length).1 ∧
    (_5_step a p start length).1 + (_5_step a p start length).2 ≤ start + length ∧
    (_5_step a p start length).2 < length := by
  unfold _5_step
  by_cases h1 : p (elemAt a (start + length / 5)) = true <;>
    by_cases h2 : p (elemAt a (start + length / 5 + length / 5)) = true <;>
    by_cases h3 : p (elemAt a (start + length / 5 + length / 5 + length / 5)) = true <;>
    by_cases h4 : p (elemAt a (start + length / 5 + length / 5 + length / 5 + length / 5)) = true <;>
    simp [h1, h2, h3, h4] <;> omega

lemma _5_step_boundary (a : List α) (p : α → Bool) (hpart : Partitioned a p)
    (start length : Nat) (h : 10 ≤ length) (hw : start + length ≤ a.length)
    (h1 : start ≤ boundary p a) (h2 : boundary p a ≤ start + length) :
    (_5_step a p start length).1 ≤ boundary p a ∧
    boundary p a ≤ (_5_step a p start length).1 + (_5_step a p start length).2 := by
  unfold _5_step
  by_cases hp1 : p (elemAt a (start + length / 5)) = true
  · have ha := lt_boundary_of_elemAt_true a p hpart (start + length / 5)
      (by omega) hp1
    by_cases hp2 : p (elemAt a (start + length / 5 + length / 5)) = true
    · have hb := lt_boundary_of_elemAt_true a p hpart
        (start + length / 5 + length / 5) (by omega) hp2
      by_cases hp3 : p (elemAt a (start + length / 5 + length / 5 + length / 5)) = true
      · have hc := lt_boundary_of_elemAt_true a p hpart
          (start + length / 5 + length / 5 + length / 5) (by omega) hp3
        by_cases hp4 : p (elemAt a (start + length / 5 + length / 5 + length / 5 + length / 5)) = true
        · have hd := lt_boundary_of_elemAt_true a p hpart
            (start + length / 5 + length / 5 + length / 5 + length / 5) (by omega) hp4
          simp [hp1, hp2, hp3, hp4]
          omega
        · have hd := boundary_le_of_elemAt_false p a
            (start + length / 5 + length / 5 + length / 5 + length / 5) (by omega)
            (by simpa using hp4)
          simp [hp1, hp2, hp3, hp4]
          omega
      · have hc := boundary_le_of_elemAt_false p a
          (start + length / 5 + length / 5 + length / 5) (by omega)
          (by simpa using hp3)
        simp [hp1, hp2, hp3]
        omega
    · have hb := boundary_le_of_elemAt_false p a
        (start + length / 5 + length / 5) (by omega) (by simpa using hp2)
      simp [hp1, hp2]
      omega
  · have hb := boundary_le_of_elemAt_false p a (start + length / 5) (by omega)
      (by simpa using hp1)
    simp [hp1]
    omega

lemma _5_loop_sound (a : List α) (p : α → Bool) (hpart : Partitioned a p) :
    ∀ (fuel start length : Nat), length ≤ fuel → start + length ≤ a.length →
      start ≤ boundary p a → boundary p a ≤ start + length →
      ∃ s l, _5_loop 10 a p fuel start length = some (s, l) ∧
        s + l ≤ a.length ∧ s ≤ boundary p a ∧ boundary p a ≤ s + l
  | 0, start, length, hf, hw, h1, h2 => by
      have hn : ¬ (10 ≤ length) := by omega
      exact ⟨start, length, by simp [_5_loop, hn], hw, h1, h2⟩
  | fuel + 1, start, length, hf, hw, h1, h2 => by
      by_cases hth : 10 ≤ length
      · obtain ⟨hs, hsw, hsl⟩ := _5_step_window a p start length hth
        obtain ⟨hb1, hb2⟩ := _5_step_boundary a p hpart start length hth hw h1 h2
        obtain ⟨s, l, heq, hh⟩ := _5_loop_sound a p hpart fuel
          (_5_step a p start length).1 (_5_step a p start length).2
          (by omega) (by omega) hb1 hb2
        exact ⟨s, l, by simp [_5_loop, hth, heq], hh⟩
      · exact ⟨start, length, by simp [_5_loop, hth], hw, h1, h2⟩

lemma _5_search_eq (a : List α) (p : α → Bool) (hpart : Partitioned a p) :
    _5_ary_search _5_ary_search_parameters a p = some (boundary p a) := by
  obtain ⟨s, l, heq, hw, h1, h2⟩ := _5_loop_sound a p hpart a.length 0 a.length
    le_rfl (by omega) (by omega) (by have := boundary_le_length p a; omega)
  unfold _5_ary_search
  rw [show _5_ary_search_parameters.to_linear_threshold = 10 from rfl, heq]
  exact congrArg some (linearScan_eq_boundary a p l s h1 h2 hw)

/-! ### Arity 6: loop invariants and functional correctness -/

lemma _6_step_window (a : List α) (p : α → Bool) (start length : Nat)
    (h : 12 ≤ length) :
    start ≤ (_6_step a p start length).1 ∧
    (_6_step a p start length).1 + (_6_step a p start length).2 ≤ start + length ∧
    (_6_step a p start length).2 < length := by
  unfold _6_step
  by_cases h1 : p (elemAt a (start + length / 6)) = true <;>
    by_cases h2 : p (elemAt a (start + length / 6 + length / 6)) = true <;>
    by_cases h3 : p (elemAt a (start + length / 6 + length / 6 + length / 6)) = true <;>
    by_cases h4 : p (elemAt a (start + length / 6 + length / 6 + length / 6 + length / 6)) = true <;>
    by_cases h5 : p (elemAt a (start + length / 6 + length / 6 + length / 6 + length / 6 + length / 6)) = true <;>
    simp [h1, h2, h3, h4, h5] <;> omega

lemma _6_step_boundary (a : List α) (p : α → Bool) (hpart : Partitioned a p)
    (start length : Nat) (h : 12 ≤ length) (hw : start + length ≤ a.length)
    (h1 : start ≤ boundary p a) (h2 : boundary p a ≤ start + length) :
    (_6_step a p start length).1 ≤ boundary p a ∧
    boundary p a ≤ (_6_step a p start length).1 + (_6_step a p start length).2 := by
  unfold _6_step
  by_cases hp1 : p (elemAt a (start + length / 6)) = true
  · have ha := lt_boundary_of_elemAt_true a p hpart (start + length / 6)
      (by omega) hp1
    by_cases hp2 : p (elemAt a (start + length / 6 + length / 6)) = true
    · have hb := lt_boundary_of_elemAt_true a p hpart
        (start + length / 6 + length / 6) (by omega) hp2
      by_cases hp3 : p (elemAt a (start + length / 6 + length / 6 + length / 6)) = true
      · have hc := lt_boundary_of_elemAt_true a p hpart
          (start + length / 6 + length / 6 + length / 6) (by omega) hp3
        by_cases hp4 : p (elemAt a (start + length / 6 + length / 6 + length / 6 + length / 6)) = true
        · have hd := lt_boundary_of_elemAt_true a p hpart
            (start + length / 6 + length / 6 + length / 6 + length / 6) (by omega) hp4
          by_cases hp5 : p (elemAt a (start + length / 6 + length / 6 + length / 6 + length / 6 + length / 6)) = true
          · have he := lt_boundary_of_elemAt_true a p hpart
              (start + length / 6 + length / 6 + length / 6 + length / 6 + length / 6)
              (by omega) hp5
            simp [hp1, hp2, hp3, hp4, hp5]
            omega
          · have he := boundary_le_of_elemAt_false p a
              (start + length / 6 + length / 6 + length / 6 + length / 6 + length / 6)
              (by omega) (by simpa using hp5)
            simp [hp1, hp2, hp3, hp4, hp5]
            omega
        · have hd := boundary_le_of_elemAt_false p a
            (start + length / 6 + length / 6 + length / 6 + length / 6) (by omega)
            (by simpa using hp4)
          simp [hp1, hp2, hp3, hp4]
          omega
      · have hc := boundary_le_of_elemAt_false p a
          (start + length / 6 + length / 6 + length / 6) (by omega)
          (by simpa using hp3)
        simp [hp1, hp2, hp3]
        omega
    · have hb := boundary_le_of_elemAt_false p a
        (start + length / 6 + length / 6) (by omega) (by simpa using hp2)
      simp [hp1, hp2]
      omega
  · have hb := boundary_le_of_elemAt_false p a (start + length / 6) (by omega)
      (by simpa using hp1)
    simp [hp1]
    omega

lemma _6_loop_sound (a : List α) (p : α → Bool) (hpart : Partitioned a p) :
    ∀ (fuel start length : Nat), length ≤ fuel → start + length ≤ a.length →
      start ≤ boundary p a → boundary p a ≤ start + length →
      ∃ s l, _6_loop 12 a p fuel start length = some (s, l) ∧
        s + l ≤ a.length ∧ s ≤ boundary p a ∧ boundary p a ≤ s + l
  | 0, start, length, hf, hw, h1, h2 => by
      have hn : ¬ (12 ≤ length) := by omega
      exact ⟨start, length, by simp [_6_loop, hn], hw, h1, h2⟩
  | fuel + 1, start, length, hf, hw, h1, h2 => by
      by_cases hth : 12 ≤ length
      · obtain ⟨hs, hsw, hsl⟩ := _6_step_window a p start length hth
        obtain ⟨hb1, hb2⟩ := _6_step_boundary a p hpart start length hth hw h1 h2
        obtain ⟨s, l, heq, hh⟩ := _6_loop_sound a p hpart fuel
          (_6_step a p start length).1 (_6_step a p start length).2
          (by omega) (by omega) hb1 hb2
        exact ⟨s, l, by simp [_6_loop, hth, heq], hh⟩
      · exact ⟨start, length, by simp [_6_loop, hth], hw, h1, h2⟩

lemma _6_search_eq (a : List α) (p : α → Bool) (hpart : Partitioned a p) :
    _6_ary_search _6_ary_search_parameters a p = some (boundary p a) := by
  obtain ⟨s, l, heq, hw, h1, h2⟩ := _6_loop_sound a p hpart a.length 0 a.length
    le_rfl (by omega) (by omega) (by have := boundary_le_length p a; omega)
  unfold _6_ary_search
  rw [show _6_ary_search_parameters.to_linear_threshold = 12 from rfl, heq]
  exact congrArg some (linearScan_eq_boundary a p l s h1 h2 hw)

/-! ### Termination with the default thresholds (no sortedness assumed) -/

lemma linearScan_bounds (a : List α) (p : α → Bool) :
    ∀ (length start : Nat),
      start ≤ linearScan a p start length ∧
      linearScan a p start length ≤ start + length
  | 0, start => by simp [linearScan]
  | length + 1, start => by
      by_cases hp : p (elemAt a start) = true
      · have := linearScan_bounds a p length (start + 1)
        simp only [linearScan, hp, if_true]
        omega
      · simp [linearScan, hp]

lemma _2_loop_total (a : List α) (p : α → Bool) :
    ∀ (fuel start length : Nat), length ≤ fuel →
      ∃ s l, _2_loop 4 a p fuel start length = some (s, l) ∧ s + l ≤ start + length
  | 0, start, length, hf => by
      have hn : ¬ (4 ≤ length) := by omega
      exact ⟨start, length, by simp [_2_loop, hn], le_rfl⟩
  | fuel + 1, start, length, hf => by
      by_cases hth : 4 ≤ length
      · obtain ⟨hs, hsw, hsl⟩ := _2_step_window a p start length hth
        obtain ⟨s, l, heq, hw⟩ := _2_loop_total a p fuel
          (_2_step a p start length).1 (_2_step a p start length).2 (by omega)
        exact ⟨s, l, by simp [_2_loop, hth, heq], by omega⟩
      · exact ⟨start, length, by simp [_2_loop, hth], le_rfl⟩

lemma _3_loop_total (a : List α) (p : α → Bool) :
    ∀ (fuel start length : Nat), length ≤ fuel →
      ∃ s l, _3_loop 6 a p fuel start length = some (s, l) ∧ s + l ≤ start + length
  | 0, start, length, hf => by
      have hn : ¬ (6 ≤ length) := by omega
      exact ⟨start, length, by simp [_3_loop, hn], le_rfl⟩
  | fuel + 1, start, length, hf => by
      by_cases hth : 6 ≤ length
      · obtain ⟨hs, hsw, hsl⟩ := _3_step_window a p start length hth
        obtain ⟨s, l, heq, hw⟩ := _3_loop_total a p fuel
          (_3_step a p start length).1 (_3_step a p start length).2 (by omega)
        exact ⟨s, l, by simp [_3_loop, hth, heq], by omega⟩
      · exact ⟨start, length, by simp [_3_loop, hth], le_rfl⟩

lemma _4_loop_total (a : List α) (p : α → Bool) :
    ∀ (fuel start length : Nat), length ≤ fuel →
      ∃ s l, _4_loop 8 a p fuel start length = some (s, l) ∧ s + l ≤ start + length
  | 0, start, length, hf => by
      have hn : ¬ (8 ≤ length) := by omega
      exact ⟨start, length, by simp [_4_loop, hn], le_rfl⟩
  | fuel + 1, start, length, hf => by
      by_cases hth : 8 ≤ length
      · obtain ⟨hs, hsw, hsl⟩ := _4_step_window a p start length hth
        obtain ⟨s, l, heq, hw⟩ := _4_loop_total a p fuel
          (_4_step a p start length).1 (_4_step a p start length).2 (by omega)
        exact ⟨s, l, by simp [_4_loop, hth, heq], by omega⟩
      · exact ⟨start, length, by simp [_4_loop, hth], le_rfl⟩

lemma _5_loop_total (a : List α) (p : α → Bool) :
    ∀ (fuel start length : Nat), length ≤ fuel →
      ∃ s l, _5_loop 10 a p fuel start length = some (s, l) ∧ s + l ≤ start + length
  | 0, start, length, hf => by
      have hn : ¬ (10 ≤ length) := by omega
      exact ⟨start, length, by simp [_5_loop, hn], le_rfl⟩
  | fuel + 1, start, length, hf => by
      by_cases hth : 10 ≤ length
      · obtain ⟨hs, hsw, hsl⟩ := _5_step_window a p start length hth
        obtain ⟨s, l, heq, hw⟩ := _5_loop_total a p fuel
          (_5_step a p start length).1 (_5_step a p start length).2 (by omega)
        exact ⟨s, l, by simp [_5_loop, hth, heq], by omega⟩
      · exact ⟨start, length, by simp [_5_loop, hth], le_rfl⟩

lemma _6_loop_total (a : List α) (p : α → Bool) :
    ∀ (fuel start length : Nat), length ≤ fuel →
      ∃ s l, _6_loop 12 a p fuel start length = some (s, l) ∧ s + l ≤ start + length
  | 0, start, length, hf => by
      have hn : ¬ (12 ≤ length) := by omega
      exact ⟨start, length, by simp [_6_loop, hn], le_rfl⟩
  | fuel + 1, start, length, hf => by
      by_cases hth : 12 ≤ length
      · obtain ⟨hs, hsw, hsl⟩ := _6_step_window a p start length hth
        obtain ⟨s, l, heq, hw⟩ := _6_loop_total a p fuel
          (_6_step a p start length).1 (_6_step a p start length).2 (by omega)
        exact ⟨s, l, by simp [_6_loop, hth, heq], by omega⟩
      · exact ⟨start, length, by simp [_6_loop, hth], le_rfl⟩

lemma _2_search_total (a : List α) (p : α → Bool) :
    ∃ r, _2_ary_search _2_ary_search_parameters a p = some r := by
  obtain ⟨s, l, heq, hw⟩ := _2_loop_total a p a.length 0 a.length le_rfl
  refine ⟨linearScan a p s l, ?_⟩
  unfold _2_ary_search
  rw [show _2_ary_search_parameters.to_linear_threshold = 4 from rfl, heq]

lemma _3_search_total (a : List α) (p : α → Bool) :
    ∃ r, _3_ary_search _3_ary_search_parameters a p = some r := by
  obtain ⟨s, l, heq, hw⟩ := _3_loop_total a p a.length 0 a.length le_rfl
  refine ⟨linearScan a p s l, ?_⟩
  unfold _3_ary_search
  rw [show _3_ary_search_parameters.to_linear_threshold = 6 from rfl, heq]

lemma _4_search_total (a : List α) (p : α → Bool) :
    ∃ r, _4_ary_search _4_ary_search_parameters a p = some r := by
  obtain ⟨s, l, heq, hw⟩ := _4_loop_total a p a.length 0 a.length le_rfl
  refine ⟨linearScan a p s l, ?_⟩
  unfold _4_ary_search
  rw [show _4_ary_search_parameters.to_linear_threshold = 8 from rfl, heq]

lemma _5_search_total (a : List α) (p : α → Bool) :
    ∃ r, _5_ary_search _5_ary_search_parameters a p = some r := by
  obtain ⟨s, l, heq, hw⟩ := _5_loop_total a p a.length 0 a.length le_rfl
  refine ⟨linearScan a p s l, ?_⟩
  unfold _5_ary_search
  rw [show _5_ary_search_parameters.to_linear_threshold = 10 from rfl, heq]

lemma _6_search_total (a : List α) (p : α → Bool) :
    ∃ r, _6_ary_search _6_ary_search_parameters a p = some r := by
  obtain ⟨s, l, heq, hw⟩ := _6_loop_total a p a.length 0 a.length le_rfl
  refine ⟨linearScan a p s l, ?_⟩
  unfold _6_ary_search
  rw [show _6_ary_search_parameters.to_linear_threshold = 12 from rfl, heq]

lemma refLowerBound_eq_boundary [LinearOrder α] (q : α) :
    ∀ a : List α, refLowerBound q a = boundary (fun x => decide (x < q)) a
  | [] => rfl
  | x :: xs => by
      simp only [refLowerBound, boundary, decide_eq_true_eq]
      rw [refLowerBound_eq_boundary q xs]

lemma refUpperBound_eq_boundary [LinearOrder α] (q : α) :
    ∀ a : List α, refUpperBound q a = boundary (fun x => decide (x ≤ q)) a
  | [] => rfl
  | x :: xs => by
      simp only [refUpperBound, boundary, decide_eq_true_eq]
      rw [refUpperBound_eq_boundary q xs]

lemma partitioned_lt_of_sorted [LinearOrder α] (a : List α) (q : α)
    (hs : SortedRange a) : Partitioned a (fun x => decide (x < q)) := by
  intro j hj ht i hij
  simp only [decide_eq_true_eq] at ht ⊢
  exact lt_of_le_of_lt (hs j hj i hij) ht

lemma partitioned_le_of_sorted [LinearOrder α] (a : List α) (q : α)
    (hs : SortedRange a) : Partitioned a (fun x => decide (x ≤ q)) := by
  intro j hj ht i hij
  simp only [decide_eq_true_eq] at ht ⊢
  exact le_trans (hs j hj i hij) ht

lemma boundary_mono (p p' : α → Bool) (himp : ∀ x, p x = true → p' x = true) :
    ∀ a : List α, boundary p a ≤ boundary p' a
  | [] => le_rfl
  | x :: xs => by
      simp only [boundary]
      by_cases hx : p x
      · rw [if_pos hx, if_pos (himp x hx)]
        have := boundary_mono p p' himp xs
        omega
      · rw [if_neg hx]
        omega

lemma _2_stepReads_mem (a : List α) (p : α → Bool) (start length i : Nat)
    (h : 4 ≤ length) (hi : i ∈ _2_stepReads a p start length) :
    start < i ∧ i < start + length := by
  simp only [_2_stepReads] at hi
  simp at hi
  omega

lemma _3_stepReads_mem (a : List α) (p : α → Bool) (start length i : Nat)
    (h : 6 ≤ length) (hi : i ∈ _3_stepReads a p start length) :
    start < i ∧ i < start + length := by
  simp only [_3_stepReads] at hi
  split_ifs at hi <;> simp at hi <;> (try casesm* _ ∨ _) <;> omega

lemma _4_stepReads_mem (a : List α) (p : α → Bool) (start length i : Nat)
    (h : 8 ≤ length) (hi : i ∈ _4_stepReads a p start length) :
    start < i ∧ i < start + length := by
  simp only [_4_stepReads] at hi
  split_ifs at hi <;> simp at hi <;> (try casesm* _ ∨ _) <;> omega

lemma _5_stepReads_mem (a : List α) (p : α → Bool) (start length i : Nat)
    (h : 10 ≤ length) (hi : i ∈ _5_stepReads a p start length) :
    start < i ∧ i < start + length := by
  simp only [_5_stepReads] at hi
  split_ifs at hi <;> simp at hi <;> (try casesm* _ ∨ _) <;> omega

lemma _6_stepReads_mem (a : List α) (p : α → Bool) (start length i : Nat)
    (h : 12 ≤ length) (hi : i ∈ _6_stepReads a p start length) :
    start < i ∧ i < start + length := by
  simp only [_6_stepReads] at hi
  split_ifs at hi <;> simp at hi <;> (try casesm* _ ∨ _) <;> omega

lemma scanReads_mem (a : List α) (p : α → Bool) :
    ∀ (length start i : Nat), i ∈ scanReads a p start length →
      start ≤ i ∧ i < start + length
  | 0, start, i, hi => by simp [scanReads] at hi
  | length + 1, start, i, hi => by
      by_cases hp : p (elemAt a start) = true
      · simp only [scanReads, hp, if_true, List.mem_cons] at hi
        rcases hi with rfl | hi
        · omega
        · have := scanReads_mem a p length (start + 1) i hi
          omega
      · simp [scanReads, hp] at hi
        omega

lemma _2_loopReads_mem (a : List α) (p : α → Bool) :
    ∀ (fuel start length i : Nat), start + length ≤ a.length →
      i ∈ _2_loopReads 4 a p fuel start length → i < a.length
  | 0, start, length, i, hw, hi => by simp [_2_loopReads] at hi
  | fuel + 1, start, length, i, hw, hi => by
      by_cases hth : 4 ≤ length
      · simp only [_2_loopReads, hth, if_true, List.mem_append] at hi
        rcases hi with hi | hi
        · have := _2_stepReads_mem a p start length i hth hi
          omega
        · obtain ⟨hs, hsw, hsl⟩ := _2_step_window a p start length hth
          exact _2_loopReads_mem a p fuel _ _ i (by omega) hi
      · simp [_2_loopReads, hth] at hi

lemma _3_loopReads_mem (a : List α) (p : α → Bool) :
    ∀ (fuel start length i : Nat), start + length ≤ a.length →
      i ∈ _3_loopReads 6 a p fuel start length → i < a.length
  | 0, start, length, i, hw, hi => by simp [_3_loopReads] at hi
  | fuel + 1, start, length, i, hw, hi => by
      by_cases hth : 6 ≤ length
      · simp only [_3_loopReads, hth, if_true, List.mem_append] at hi
        rcases hi with hi | hi
        · have := _3_stepReads_mem a p start length i hth hi
          omega
        · obtain ⟨hs, hsw, hsl⟩ := _3_step_window a p start length hth
          exact _3_loopReads_mem a p fuel _ _ i (by omega) hi
      · simp [_3_loopReads, hth] at hi

lemma _4_loopReads_mem (a : List α) (p : α → Bool) :
    ∀ (fuel start length i : Nat), start + length ≤ a.length →
      i ∈ _4_loopReads 8 a p fuel start length → i < a.length
  | 0, start, length, i, hw, hi => by simp [_4_loopReads] at hi
  | fuel + 1, start, length, i, hw, hi => by
      by_cases hth : 8 ≤ length
      · simp only [_4_loopReads, hth, if_true, List.mem_append] at hi
        rcases hi with hi | hi
        · have := _4_stepReads_mem a p start length i hth hi
          omega
        · obtain ⟨hs, hsw, hsl⟩ := _4_step_window a p start length hth
          exact _4_loopReads_mem a p fuel _ _ i (by omega) hi
      · simp [_4_loopReads, hth] at hi

lemma _5_loopReads_mem (a : List α) (p : α → Bool) :
    ∀ (fuel start length i : Nat), start + length ≤ a.length →
      i ∈ _5_loopReads 10 a p fuel start length → i < a.length
  | 0, start, length, i, hw, hi => by simp [_5_loopReads] at hi
  | fuel + 1, start, length, i, hw, hi => by
      by_cases hth : 10 ≤ length
      · simp only [_5_loopReads, hth, if_true, List.mem_append] at hi
        rcases hi with hi | hi
        · have := _5_stepReads_mem a p start length i hth hi
          omega
        · obtain ⟨hs, hsw, hsl⟩ := _5_step_window a p start length hth
          exact _5_loopReads_mem a p fuel _ _ i (by omega) hi
      · simp [_5_loopReads, hth] at hi

lemma _6_loopReads_mem (a : List α) (p : α → Bool) :
    ∀ (fuel start length i : Nat), start + length ≤ a.length →
      i ∈ _6_loopReads 12 a p fuel start length → i < a.length
  | 0, start, length, i, hw, hi => by simp [_6_loopReads] at hi
  | fuel + 1, start, length, i, hw, hi => by
      by_cases hth : 12 ≤ length
      · simp only [_6_loopReads, hth, if_true, List.mem_append] at hi
        rcases hi with hi | hi
        · have := _6_stepReads_mem a p start length i hth hi
          omega
        · obtain ⟨hs, hsw, hsl⟩ := _6_step_window a p start length hth
          exact _6_loopReads_mem a p fuel _ _ i (by omega) hi
      · simp [_6_loopReads, hth] at hi

lemma _2_searchReads_mem (a : List α) (p : α → Bool) (i : Nat)
    (hi : i ∈ _2_searchReads _2_ary_search_parameters a p) : i < a.length := by
  unfold _2_searchReads at hi
  rw [show _2_ary_search_parameters.to_linear_threshold = 4 from rfl] at hi
  obtain ⟨s, l, heq, hw⟩ := _2_loop_total a p a.length 0 a.length le_rfl
  rw [heq] at hi
  simp only [List.mem_append] at hi
  rcases hi with hi | hi
  · exact _2_loopReads_mem a p a.length 0 a.length i (by omega) hi
  · have := scanReads_mem a p l s i hi
    omega

lemma _3_searchReads_mem (a : List α) (p : α → Bool) (i : Nat)
    (hi : i ∈ _3_searchReads _3_ary_search_parameters a p) : i < a.length := by
  unfold _3_searchReads at hi
  rw [show _3_ary_search_parameters.to_linear_threshold = 6 from rfl] at hi
  obtain ⟨s, l, heq, hw⟩ := _3_loop_total a p a.length 0 a.length le_rfl
  rw [heq] at hi
  simp only [List.mem_append] at hi
  rcases hi with hi | hi
  · exact _3_loopReads_mem a p a.length 0 a.length i (by omega) hi
  · have := scanReads_mem a p l s i hi
    omega

lemma _4_searchReads_mem (a : List α) (p : α → Bool) (i : Nat)
    (hi : i ∈ _4_searchReads _4_ary_search_parameters a p) : i < a.length := by
  unfold _4_searchReads at hi
  rw [show _4_ary_search_parameters.to_linear_threshold = 8 from rfl] at hi
  obtain ⟨s, l, heq, hw⟩ := _4_loop_total a p a.length 0 a.length le_rfl
  rw [heq] at hi
  simp only [List.mem_append] at hi
  rcases hi with hi | hi
  · exact _4_loopReads_mem a p a.length 0 a.length i (by omega) hi
  · have := scanReads_mem a p l s i hi
    omega

lemma _5_searchReads_mem (a : List α) (p : α → Bool) (i : Nat)
    (hi : i ∈ _5_searchReads _5_ary_search_parameters a p) : i < a.length := by
  unfold _5_searchReads at hi
  rw [show _5_ary_search_parameters.to_linear_threshold = 10 from rfl] at hi
  obtain ⟨s, l, heq, hw⟩ := _5_loop_total a p a.length 0 a.length le_rfl
  rw [heq] at hi
  simp only [List.mem_append] at hi
  rcases hi with hi | hi
  · exact _5_loopReads_mem a p a.length 0 a.length i (by omega) hi
  · have := scanReads_mem a p l s i hi
    omega

lemma _6_searchReads_mem (a : List α) (p : α → Bool) (i : Nat)
    (hi : i ∈ _6_searchReads _6_ary_search_parameters a p) : i < a.length := by
  unfold _6_searchReads at hi
  rw [show _6_ary_search_parameters.to_linear_threshold = 12 from rfl] at hi
  obtain ⟨s, l, heq, hw⟩ := _6_loop_total a p a.length 0 a.length le_rfl
  rw [heq] at hi
  simp only [List.mem_append] at hi
  rcases hi with hi | hi
  · exact _6_loopReads_mem a p a.length 0 a.length i (by omega) hi
  · have := scanReads_mem a p l s i hi
    omega

/-! ### Behaviour of the narrowing loops around the threshold -/

lemma _2_loop_below (thr : Nat) (a : List α) (p : α → Bool)
    (fuel start length : Nat) (h : length < thr) :
    _2_loop thr a p fuel start length = some (start, length) := by
  cases fuel <;> simp [_2_loop, show ¬ thr ≤ length from by omega]

lemma _3_loop_below (thr : Nat) (a : List α) (p : α → Bool)
    (fuel start length : Nat) (h : length < thr) :
    _3_loop thr a p fuel start length = some (start, length) := by
  cases fuel <;> simp [_3_loop, show ¬ thr ≤ length from by omega]

lemma _4_loop_below (thr : Nat) (a : List α) (p : α → Bool)
    (fuel start length : Nat) (h : length < thr) :
    _4_loop thr a p fuel start length = some (start, length) := by
  cases fuel <;> simp [_4_loop, show ¬ thr ≤ length from by omega]

lemma _5_loop_below (thr : Nat) (a : List α) (p : α → Bool)
    (fuel start length : Nat) (h : length < thr) :
    _5_loop thr a p fuel start length = some (start, length) := by
  cases fuel <;> simp [_5_loop, show ¬ thr ≤ length from by omega]

lemma _6_loop_below (thr : Nat) (a : List α) (p : α → Bool)
    (fuel start length : Nat) (h : length < thr) :
    _6_loop thr a p fuel start length = some (start, length) := by
  cases fuel <;> simp [_6_loop, show ¬ thr ≤ length from by omega]

/-! ### The claims -/

/-- C1: For every arity Q in {2,3,4,5,6}, on a range partitioned (i.e.
sorted) with respect to the supplied predicate, `_Q_ary_search(begin, end,
q, pred)` returns the first position at which the predicate fails
(`boundary p a`): every position before the result satisfies the predicate
and the result position, when in range, fails it; when every element
satisfies the predicate the result is the end (`a.length`), and on the empty
range it is the start `0` (which equals the end). -/
theorem C1_search_first_failing (a : List α) (p : α → Bool)
    (hpart : Partitioned a p) :
    (_2_ary_search _2_ary_search_parameters a p = some (boundary p a) ∧
     _3_ary_search _3_ary_search_parameters a p = some (boundary p a) ∧
     _4_ary_search _4_ary_search_parameters a p = some (boundary p a) ∧
     _5_ary_search _5_ary_search_parameters a p = some (boundary p a) ∧
     _6_ary_search _6_ary_search_parameters a p = some (boundary p a)) ∧
    IsFirstFalse a p (boundary p a) ∧
    ((∀ j, j < a.length → p (elemAt a j) = true) → boundary p a = a.length) ∧
    (a = [] → boundary p a = 0) :=
  ⟨⟨_2_search_eq a p hpart, _3_search_eq a p hpart, _4_search_eq a p hpart,
    _5_search_eq a p hpart, _6_search_eq a p hpart⟩,
   isFirstFalse_boundary a p, boundary_eq_length_of_all_true a p,
   fun h => by rw [h]; rfl⟩

/-- Witness for C1: the ordinary test sequence of `main.cpp` with query 19
(`pred = std::less`); all five searches return position 7. -/
theorem C1_witness :
    Partitioned [2, 4, 6, 7, 12, 13, 16, 19, 23, 24, 27, 32, 36]
      (fun x : Nat => decide (x < 19)) ∧
    _2_ary_search _2_ary_search_parameters
      [2, 4, 6, 7, 12, 13, 16, 19, 23, 24, 27, 32, 36]
      (fun x : Nat => decide (x < 19)) = some 7 ∧
    _3_ary_search _3_ary_search_parameters
      [2, 4, 6, 7, 12, 13, 16, 19, 23, 24, 27, 32, 36]
      (fun x : Nat => decide (x < 19)) = some 7 ∧
    _4_ary_search _4_ary_search_parameters
      [2, 4, 6, 7, 12, 13, 16, 19, 23, 24, 27, 32, 36]
      (fun x : Nat => decide (x < 19)) = some 7 ∧
    _5_ary_search _5_ary_search_parameters
      [2, 4, 6, 7, 12, 13, 16, 19, 23, 24, 27, 32, 36]
      (fun x : Nat => decide (x < 19)) = some 7 ∧
    _6_ary_search _6_ary_search_parameters
      [2, 4, 6, 7, 12, 13, 16, 19, 23, 24, 27, 32, 36]
      (fun x : Nat => decide (x < 19)) = some 7 := by
  have hp : Partitioned [2, 4, 6, 7, 12, 13, 16, 19, 23, 24, 27, 32, 36]
      (fun x : Nat => decide (x < 19)) := by decide
  have h := (C1_search_first_failing _ _ hp).1
  exact ⟨hp, h.1, h.2.1, h.2.2.1, h.2.2.2.1, h.2.2.2.2⟩

/-- C2: For every arity Q in {2,3,4,5,6}, every sorted range and every query,
`_Q_ary_lower_bound` agrees with the reference binary-search lower bound
(first position whose element is not less than the query), and
`_Q_ary_upper_bound` with the reference upper bound (first position whose
element is strictly greater than the query). -/
theorem C2_agreement_with_reference [LinearOrder α] (a : List α) (q : α)
    (hs : SortedRange a) :
    (_2_ary_lower_bound a q = some (refLowerBound q a) ∧
     _3_ary_lower_bound a q = some (refLowerBound q a) ∧
     _4_ary_lower_bound a q = some (refLowerBound q a) ∧
     _5_ary_lower_bound a q = some (refLowerBound q a) ∧
     _6_ary_lower_bound a q = some (refLowerBound q a)) ∧
    (_2_ary_upper_bound a q = some (refUpperBound q a) ∧
     _3_ary_upper_bound a q = some (refUpperBound q a) ∧
     _4_ary_upper_bound a q = some (refUpperBound q a) ∧
     _5_ary_upper_bound a q = some (refUpperBound q a) ∧
     _6_ary_upper_bound a q = some (refUpperBound q a)) := by
  have hl := partitioned_lt_of_sorted a q hs
  have hu := partitioned_le_of_sorted a q hs
  rw [refLowerBound_eq_boundary, refUpperBound_eq_boundary]
  exact ⟨⟨_2_search_eq a _ hl, _3_search_eq a _ hl, _4_search_eq a _ hl,
          _5_search_eq a _ hl, _6_search_eq a _ hl⟩,
         ⟨_2_search_eq a _ hu, _3_search_eq a _ hu, _4_search_eq a _ hu,
          _5_search_eq a _ hu, _6_search_eq a _ hu⟩⟩

/-- Witness for C2: the fragmented test sequence of `main.cpp` with query 7;
all lower bounds return 3 and all upper bounds return 7. -/
theorem C2_witness :
    SortedRange [3, 3, 3, 7, 7, 7, 7, 12, 12, 16, 16, 16, 16] ∧
    _2_ary_lower_bound [3, 3, 3, 7, 7, 7, 7, 12, 12, 16, 16, 16, 16] (7 : Nat) = some 3 ∧
    _3_ary_lower_bound [3, 3, 3, 7, 7, 7, 7, 12, 12, 16, 16, 16, 16] (7 : Nat) = some 3 ∧
    _4_ary_lower_bound [3, 3, 3, 7, 7, 7, 7, 12, 12, 16, 16, 16, 16] (7 : Nat) = some 3 ∧
    _5_ary_lower_bound [3, 3, 3, 7, 7, 7, 7, 12, 12, 16, 16, 16, 16] (7 : Nat) = some 3 ∧
    _6_ary_lower_bound [3, 3, 3, 7, 7, 7, 7, 12, 12, 16, 16, 16, 16] (7 : Nat) = some 3 ∧
    _2_ary_upper_bound [3, 3, 3, 7, 7, 7, 7, 12, 12, 16, 16, 16, 16] (7 : Nat) = some 7 ∧
    _3_ary_upper_bound [3, 3, 3, 7, 7, 7, 7, 12, 12, 16, 16, 16, 16] (7 : Nat) = some 7 ∧
    _4_ary_upper_bound [3, 3, 3, 7, 7, 7, 7, 12, 12, 16, 16, 16, 16] (7 : Nat) = some 7 ∧
    _5_ary_upper_bound [3, 3, 3, 7, 7, 7, 7, 12, 12, 16, 16, 16, 16] (7 : Nat) = some 7 ∧
    _6_ary_upper_bound [3, 3, 3, 7, 7, 7, 7, 12, 12, 16, 16, 16, 16] (7 : Nat) = some 7 := by
  have hs : SortedRange [3, 3, 3, 7, 7, 7, 7, 12, 12, 16, 16, 16, 16] := by decide
  have h := C2_agreement_with_reference [3, 3, 3, 7, 7, 7, 7, 12, 12, 16, 16, 16, 16]
    (7 : Nat) hs
  exact ⟨hs, h.1.1, h.1.2.1, h.1.2.2.1, h.1.2.2.2.1, h.1.2.2.2.2,
         h.2.1, h.2.2.1, h.2.2.2.1, h.2.2.2.2.1, h.2.2.2.2.2⟩

/-- C3 counterexample: in a narrowing step of the 3-ary loop on window
{start 0, length 6} (fragment_length 2), probe 1 at position `0 + 1*2`
satisfies the predicate and probe 2 at position `0 + 2*2` is the first
failing probe (k = 2), yet the step produces the window `(2, 2)` — the
single fragment before the failing probe — and not
{start unchanged, length = k·fragment_length} = `(0, 4)` as the claim
states. -/
theorem C3_counterexample :
    (fun x : Nat => decide (x < 4)) (elemAt [1, 1, 1, 1, 9, 9] (0 + 1 * (6 / 3))) = true ∧
    (fun x : Nat => decide (x < 4)) (elemAt [1, 1, 1, 1, 9, 9] (0 + 2 * (6 / 3))) = false ∧
    _3_step [1, 1, 1, 1, 9, 9] (fun x : Nat => decide (x < 4)) 0 6 = (2, 2) ∧
    _3_step [1, 1, 1, 1, 9, 9] (fun x : Nat => decide (x < 4)) 0 6 ≠ (0, 2 * (6 / 3)) := by
  decide

/-- C3 (amended): in every narrowing step of the Q-ary loop, when the probes
at `start + fragment_length, ..., start + (Q-1)*fragment_length` are tested
left to right and the k-th probe (1-based) is the first whose predicate test
returns false, the active window becomes the single fragment immediately
before that probe: start becomes `start + (k-1)*fragment_length` and length
becomes `fragment_length`. -/
theorem C3_first_fail_window (a : List α) (p : α → Bool) (start length : Nat) :
    (∀ k, 1 ≤ k → k ≤ 1 →
       (∀ i, 1 ≤ i → i < k → p (elemAt a (start + i * (length / 2))) = true) →
       p (elemAt a (start + k * (length / 2))) = false →
       _2_step a p start length = (start + (k - 1) * (length / 2), length / 2)) ∧
    (∀ k, 1 ≤ k → k ≤ 2 →
       (∀ i, 1 ≤ i → i < k → p (elemAt a (start + i * (length / 3))) = true) →
       p (elemAt a (start + k * (length / 3))) = false →
       _3_step a p start length = (start + (k - 1) * (length / 3), length / 3)) ∧
    (∀ k, 1 ≤ k → k ≤ 3 →
       (∀ i, 1 ≤ i → i < k → p (elemAt a (start + i * (length / 4))) = true) →
       p (elemAt a (start + k * (length / 4))) = false →
       _4_step a p start length = (start + (k - 1) * (length / 4), length / 4)) ∧
    (∀ k, 1 ≤ k → k ≤ 4 →
       (∀ i, 1 ≤ i → i < k → p (elemAt a (start + i * (length / 5))) = true) →
       p (elemAt a (start + k * (length / 5))) = false →
       _5_step a p start length = (start + (k - 1) * (length / 5), length / 5)) ∧
    (∀ k, 1 ≤ k → k ≤ 5 →
       (∀ i, 1 ≤ i → i < k → p (elemAt a (start + i * (length / 6))) = true) →
       p (elemAt a (start + k * (length / 6))) = false →
       _6_step a p start length = (start + (k - 1) * (length / 6), length / 6)) := by
  refine ⟨?_, ?_, ?_, ?_, ?_⟩
  · intro k hk1 hk2 hprev hk
    interval_cases k
    rw [one_mul] at hk
    simp [_2_step, hk, Prod.mk.injEq] <;> omega
  · intro k hk1 hk2 hprev hk
    interval_cases k
    · rw [one_mul] at hk
      simp [_3_step, hk, Prod.mk.injEq] <;> omega
    · have h1 := hprev 1 (by omega) (by omega)
      rw [one_mul] at h1
      rw [show start + 2 * (length / 3) = start + length / 3 + length / 3 from by omega] at hk
      simp [_3_step, h1, hk, Prod.mk.injEq] <;> omega
  · intro k hk1 hk2 hprev hk
    interval_cases k
    · rw [one_mul] at hk
      simp [_4_step, hk, Prod.mk.injEq] <;> omega
    · have h1 := hprev 1 (by omega) (by omega)
      rw [one_mul] at h1
      rw [show start + 2 * (length / 4) = start + length / 4 + length / 4 from by omega] at hk
      simp [_4_step, h1, hk, Prod.mk.injEq] <;> omega
    · have h1 := hprev 1 (by omega) (by omega)
      have h2 := hprev 2 (by omega) (by omega)
      rw [one_mul] at h1
      rw [show start + 2 * (length / 4) = start + length / 4 + length / 4 from by omega] at h2
      rw [show start + 3 * (length / 4) = start + length / 4 + length / 4 + length / 4 from by omega] at hk
      simp [_4_step, h1, h2, hk, Prod.mk.injEq] <;> omega
  · intro k hk1 hk2 hprev hk
    interval_cases k
    · rw [one_mul] at hk
      simp [_5_step, hk, Prod.mk.injEq] <;> omega
    · have h1 := hprev 1 (by omega) (by omega)
      rw [one_mul] at h1
      rw [show start + 2 * (length / 5) = start + length / 5 + length / 5 from by omega] at hk
      simp [_5_step, h1, hk, Prod.mk.injEq] <;> omega
    · have h1 := hprev 1 (by omega) (by omega)
      have h2 := hprev 2 (by omega) (by omega)
      rw [one_mul] at h1
      rw [show start + 2 * (length / 5) = start + length / 5 + length / 5 from by omega] at h2
      rw [show start + 3 * (length / 5) = start + length / 5 + length / 5 + length / 5 from by omega] at hk
      simp [_5_step, h1, h2, hk, Prod.mk.injEq] <;> omega
    · have h1 := hprev 1 (by omega) (by omega)
      have h2 := hprev 2 (by omega) (by omega)
      have h3 := hprev 3 (by omega) (by omega)
      rw [one_mul] at h1
      rw [show start + 2 * (length / 5) = start + length / 5 + length / 5 from by omega] at h2
      rw [show start + 3 * (length / 5) = start + length / 5 + length / 5 + length / 5 from by omega] at h3
      rw [show start + 4 * (length / 5) = start + length / 5 + length / 5 + length / 5 + length / 5 from by omega] at hk
      simp [_5_step, h1, h2, h3, hk, Prod.mk.injEq] <;> omega
  · intro k hk1 hk2 hprev hk
    interval_cases k
    · rw [one_mul] at hk
      simp [_6_step, hk, Prod.mk.injEq] <;> omega
    · have h1 := hprev 1 (by omega) (by omega)
      rw [one_mul] at h1
      rw [show start + 2 * (length / 6) = start + length / 6 + length / 6 from by omega] at hk
      simp [_6_step, h1, hk, Prod.mk.injEq] <;> omega
    · have h1 := hprev 1 (by omega) (by omega)
      have h2 := hprev 2 (by omega) (by omega)
      rw [one_mul] at h1
      rw [show start + 2 * (length / 6) = start + length / 6 + length / 6 from by omega] at h2
      rw [show start + 3 * (length / 6) = start + length / 6 + length / 6 + length / 6 from by omega] at hk
      simp [_6_step, h1, h2, hk, Prod.mk.injEq] <;> omega
    · have h1 := hprev 1 (by omega) (by omega)
      have h2 := hprev 2 (by omega) (by omega)
      have h3 := hprev 3 (by omega) (by omega)
      rw [one_mul] at h1
      rw [show start + 2 * (length / 6) = start + length / 6 + length / 6 from by omega] at h2
      rw [show start + 3 * (length / 6) = start + length / 6 + length / 6 + length / 6 from by omega] at h3
      rw [show start + 4 * (length / 6) = start + length / 6 + length / 6 + length / 6 + length / 6 from by omega] at hk
      simp [_6_step, h1, h2, h3, hk, Prod.mk.injEq] <;> omega
    · have h1 := hprev 1 (by omega) (by omega)
      have h2 := hprev 2 (by omega) (by omega)
      have h3 := hprev 3 (by omega) (by omega)
      have h4 := hprev 4 (by omega) (by omega)
      rw [one_mul] at h1
      rw [show start + 2 * (length / 6) = start + length / 6 + length / 6 from by omega] at h2
      rw [show start + 3 * (length / 6) = start + length / 6 + length / 6 + length / 6 from by omega] at h3
      rw [show start + 4 * (length / 6) = start + length / 6 + length / 6 + length / 6 + length / 6 from by omega] at h4
      rw [show start + 5 * (length / 6) = start + length / 6 + length / 6 + length / 6 + length / 6 + length / 6 from by omega] at hk
      simp [_6_step, h1, h2, h3, h4, hk, Prod.mk.injEq] <;> omega

/-- Witness for the amended C3 at arity 3, window {0, 6}, first failing probe
k = 2: the step window is the fragment before probe 2. -/
theorem C3_witness :
    ((∀ i, 1 ≤ i → i < 2 →
        (fun x : Nat => decide (x < 4)) (elemAt [1, 1, 1, 1, 9, 9] (0 + i * (6 / 3))) = true) ∧
     (fun x : Nat => decide (x < 4)) (elemAt [1, 1, 1, 1, 9, 9] (0 + 2 * (6 / 3))) = false) ∧
    _3_step [1, 1, 1, 1, 9, 9] (fun x : Nat => decide (x < 4)) 0 6 =
      (0 + (2 - 1) * (6 / 3), 6 / 3) := by
  have hprev : ∀ i, 1 ≤ i → i < 2 →
      (fun x : Nat => decide (x < 4)) (elemAt [1, 1, 1, 1, 9, 9] (0 + i * (6 / 3))) = true := by
    intro i hi1 hi2
    interval_cases i
    decide
  have hk : (fun x : Nat => decide (x < 4)) (elemAt [1, 1, 1, 1, 9, 9] (0 + 2 * (6 / 3))) = false := by
    decide
  exact ⟨⟨hprev, hk⟩,
    (C3_first_fail_window [1, 1, 1, 1, 9, 9] (fun x : Nat => decide (x < 4)) 0 6).2.1
      2 (by omega) (by omega) hprev hk⟩

/-- C4: in every narrowing step the fragment length is `length / Q` (floor
division), and when all Q-1 probes satisfy the predicate the active window
becomes the last fragment: start becomes `start + (Q-1)*fragment_length` and
length becomes `length - (Q-1)*fragment_length`; the remainder `length mod Q`
is always folded into this final fragment (`length - (Q-1)*(length/Q) =
length/Q + length%Q`), never the first. -/
theorem C4_all_pass_last_fragment (a : List α) (p : α → Bool)
    (start length : Nat) :
    ((∀ k, 1 ≤ k → k ≤ 1 → p (elemAt a (start + k * (length / 2))) = true) →
       _2_step a p start length =
         (start + 1 * (length / 2), length - 1 * (length / 2))) ∧
    ((∀ k, 1 ≤ k → k ≤ 2 → p (elemAt a (start + k * (length / 3))) = true) →
       _3_step a p start length =
         (start + 2 * (length / 3), length - 2 * (length / 3))) ∧
    ((∀ k, 1 ≤ k → k ≤ 3 → p (elemAt a (start + k * (length / 4))) = true) →
       _4_step a p start length =
         (start + 3 * (length / 4), length - 3 * (length / 4))) ∧
    ((∀ k, 1 ≤ k → k ≤ 4 → p (elemAt a (start + k * (length / 5))) = true) →
       _5_step a p start length =
         (start + 4 * (length / 5), length - 4 * (length / 5))) ∧
    ((∀ k, 1 ≤ k → k ≤ 5 → p (elemAt a (start + k * (length / 6))) = true) →
       _6_step a p start length =
         (start + 5 * (length / 6), length - 5 * (length / 6))) ∧
    (length - 1 * (length / 2) = length / 2 + length % 2 ∧
     length - 2 * (length / 3) = length / 3 + length % 3 ∧
     length - 3 * (length / 4) = length / 4 + length % 4 ∧
     length - 4 * (length / 5) = length / 5 + length % 5 ∧
     length - 5 * (length / 6) = length / 6 + length % 6) := by
  refine ⟨?_, ?_, ?_, ?_, ?_, by omega, by omega, by omega, by omega, by omega⟩
  · intro hall
    have h1 := hall 1 (by omega) (by omega)
    rw [one_mul] at h1
    simp [_2_step, h1, Prod.mk.injEq] <;> omega
  · intro hall
    have h1 := hall 1 (by omega) (by omega)
    have h2 := hall 2 (by omega) (by omega)
    rw [one_mul] at h1
    rw [show start + 2 * (length / 3) = start + length / 3 + length / 3 from by omega] at h2
    simp [_3_step, h1, h2, Prod.mk.injEq] <;> omega
  · intro hall
    have h1 := hall 1 (by omega) (by omega)
    have h2 := hall 2 (by omega) (by omega)
    have h3 := hall 3 (by omega) (by omega)
    rw [one_mul] at h1
    rw [show start + 2 * (length / 4) = start + length / 4 + length / 4 from by omega] at h2
    rw [show start + 3 * (length / 4) = start + length / 4 + length / 4 + length / 4 from by omega] at h3
    simp [_4_step, h1, h2, h3, Prod.mk.injEq] <;> omega
  · intro hall
    have h1 := hall 1 (by omega) (by omega)
    have h2 := hall 2 (by omega) (by omega)
    have h3 := hall 3 (by omega) (by omega)
    have h4 := hall 4 (by omega) (by omega)
    rw [one_mul] at h1
    rw [show start + 2 * (length / 5) = start + length / 5 + length / 5 from by omega] at h2
    rw [show start + 3 * (length / 5) = start + length / 5 + length / 5 + length / 5 from by omega] at h3
    rw [show start + 4 * (length / 5) = start + length / 5 + length / 5 + length / 5 + length / 5 from by omega] at h4
    simp [_5_step, h1, h2, h3, h4, Prod.mk.injEq] <;> omega
  · intro hall
    have h1 := hall 1 (by omega) (by omega)
    have h2 := hall 2 (by omega) (by omega)
    have h3 := hall 3 (by omega) (by omega)
    have h4 := hall 4 (by omega) (by omega)
    have h5 := hall 5 (by omega) (by omega)
    rw [one_mul] at h1
    rw [show start + 2 * (length / 6) = start + length / 6 + length / 6 from by omega] at h2
    rw [show start + 3 * (length / 6) = start + length / 6 + length / 6 + length / 6 from by omega] at h3
    rw [show start + 4 * (length / 6) = start + length / 6 + length / 6 + length / 6 + length / 6 from by omega] at h4
    rw [show start + 5 * (length / 6) = start + length / 6 + length / 6 + length / 6 + length / 6 + length / 6 from by omega] at h5
    simp [_6_step, h1, h2, h3, h4, h5, Prod.mk.injEq] <;> omega

/-- Witness for C4 at arity 3 on a window of length 7 (remainder 1): both
probes satisfy the predicate and the window becomes the last fragment
`(0 + 2*2, 7 - 2*2) = (4, 3)`, which has the remainder folded in. -/
theorem C4_witness :
    (∀ k, 1 ≤ k → k ≤ 2 →
       (fun x : Nat => decide (x < 9)) (elemAt [0, 0, 0, 0, 0, 0, 0] (0 + k * (7 / 3))) = true) ∧
    _3_step [0, 0, 0, 0, 0, 0, 0] (fun x : Nat => decide (x < 9)) 0 7 =
      (0 + 2 * (7 / 3), 7 - 2 * (7 / 3)) := by
  have hall : ∀ k, 1 ≤ k → k ≤ 2 →
      (fun x : Nat => decide (x < 9)) (elemAt [0, 0, 0, 0, 0, 0, 0] (0 + k * (7 / 3))) = true := by
    intro k hk1 hk2
    interval_cases k <;> decide
  exact ⟨hall,
    (C4_all_pass_last_fragment [0, 0, 0, 0, 0, 0, 0] (fun x : Nat => decide (x < 9)) 0 7).2.1 hall⟩

/-- C5: for every arity Q in {2,3,4,5,6} the `to_linear_threshold` parameter
defaults to `2*Q` (4, 6, 8, 10, 12); the narrowing loop performs a
fragmenting step only while the window length is at least the threshold and
exits as soon as the length is below it; in particular a call on a range
shorter than the threshold is exactly the final linear scan. -/
theorem C5_threshold_policy (a : List α) (p : α → Bool) :
    (_2_ary_search_parameters.to_linear_threshold = 2 * 2 ∧
     _3_ary_search_parameters.to_linear_threshold = 3 * 2 ∧
     _4_ary_search_parameters.to_linear_threshold = 4 * 2 ∧
     _5_ary_search_parameters.to_linear_threshold = 5 * 2 ∧
     _6_ary_search_parameters.to_linear_threshold = 6 * 2) ∧
    (∀ thr fuel start length, length < thr →
       _2_loop thr a p fuel start length = some (start, length) ∧
       _3_loop thr a p fuel start length = some (start, length) ∧
       _4_loop thr a p fuel start length = some (start, length) ∧
       _5_loop thr a p fuel start length = some (start, length) ∧
       _6_loop thr a p fuel start length = some (start, length)) ∧
    (∀ thr fuel start length, thr ≤ length →
       _2_loop thr a p (fuel + 1) start length =
         _2_loop thr a p fuel (_2_step a p start length).1 (_2_step a p start length).2 ∧
       _3_loop thr a p (fuel + 1) start length =
         _3_loop thr a p fuel (_3_step a p start length).1 (_3_step a p start length).2 ∧
       _4_loop thr a p (fuel + 1) start length =
         _4_loop thr a p fuel (_4_step a p start length).1 (_4_step a p start length).2 ∧
       _5_loop thr a p (fuel + 1) start length =
         _5_loop thr a p fuel (_5_step a p start length).1 (_5_step a p start length).2 ∧
       _6_loop thr a p (fuel + 1) start length =
         _6_loop thr a p fuel (_6_step a p start length).1 (_6_step a p start length).2) ∧
    ((∀ ps : _2_ary_search_parameters_t, a.length < ps.to_linear_threshold →
        _2_ary_search ps a p = some (linearScan a p 0 a.length)) ∧
     (∀ ps : _3_ary_search_parameters_t, a.length < ps.to_linear_threshold →
        _3_ary_search ps a p = some (linearScan a p 0 a.length)) ∧
     (∀ ps : _4_ary_search_parameters_t, a.length < ps.to_linear_threshold →
        _4_ary_search ps a p = some (linearScan a p 0 a.length)) ∧
     (∀ ps : _5_ary_search_parameters_t, a.length < ps.to_linear_threshold →
        _5_ary_search ps a p = some (linearScan a p 0 a.length)) ∧
     (∀ ps : _6_ary_search_parameters_t, a.length < ps.to_linear_threshold →
        _6_ary_search ps a p = some (linearScan a p 0 a.length))) := by
  refine ⟨⟨rfl, rfl, rfl, rfl, rfl⟩, ?_, ?_, ?_, ?_, ?_, ?_, ?_⟩
  · intro thr fuel start length h
    exact ⟨_2_loop_below thr a p fuel start length h,
           _3_loop_below thr a p fuel start length h,
           _4_loop_below thr a p fuel start length h,
           _5_loop_below thr a p fuel start length h,
           _6_loop_below thr a p fuel start length h⟩
  · intro thr fuel start length h
    refine ⟨?_, ?_, ?_, ?_, ?_⟩ <;>
      simp [_2_loop, _3_loop, _4_loop, _5_loop, _6_loop, h]
  · intro ps h
    unfold _2_ary_search
    rw [_2_loop_below ps.to_linear_threshold a p a.length 0 a.length h]
  · intro ps h
    unfold _3_ary_search
    rw [_3_loop_below ps.to_linear_threshold a p a.length 0 a.length h]
  · intro ps h
    unfold _4_ary_search
    rw [_4_loop_below ps.to_linear_threshold a p a.length 0 a.length h]
  · intro ps h
    unfold _5_ary_search
    rw [_5_loop_below ps.to_linear_threshold a p a.length 0 a.length h]
  · intro ps h
    unfold _6_ary_search
    rw [_6_loop_below ps.to_linear_threshold a p a.length 0 a.length h]

/-- Witness for C5: on the window {start 0, length 3} (below every default
threshold) every loop exits immediately, and on the 3-element range the
arity-2 search with its default parameters is the plain linear scan. -/
theorem C5_witness :
    ((3 : Nat) < 4 ∧
     _2_loop 4 [5, 6, 7] (fun x : Nat => decide (x < 7)) 3 0 3 = some (0, 3)) ∧
    ((3 : Nat) < _2_ary_search_parameters.to_linear_threshold ∧
     _2_ary_search _2_ary_search_parameters [5, 6, 7] (fun x : Nat => decide (x < 7)) =
       some (linearScan [5, 6, 7] (fun x : Nat => decide (x < 7)) 0 3)) := by
  have h := C5_threshold_policy [5, 6, 7] (fun x : Nat => decide (x < 7))
  exact ⟨⟨by decide, (h.2.1 4 3 0 3 (by decide)).1⟩,
         ⟨by decide, h.2.2.2.1 _2_ary_search_parameters (by decide)⟩⟩

/-- C6: for every arity Q in {2,3,4,5,6} the bool-returning `_Q_ary_search`
overload performs a single lower-bound call — which always produces a result
— and returns exactly `decide (result ≠ end ∧ ¬ (query < element at
result))`: true iff the lower-bound result is not the end position and the
element there is not greater than the query. -/
theorem C6_contains_via_lower_bound [LinearOrder α] (a : List α) (q : α) :
    ((∃ r, _2_ary_lower_bound a q = some r) ∧
     ∀ r, _2_ary_lower_bound a q = some r →
       _2_ary_contains a q = some (decide (r ≠ a.length ∧ ¬ (q < elemAt a r)))) ∧
    ((∃ r, _3_ary_lower_bound a q = some r) ∧
     ∀ r, _3_ary_lower_bound a q = some r →
       _3_ary_contains a q = some (decide (r ≠ a.length ∧ ¬ (q < elemAt a r)))) ∧
    ((∃ r, _4_ary_lower_bound a q = some r) ∧
     ∀ r, _4_ary_lower_bound a q = some r →
       _4_ary_contains a q = some (decide (r ≠ a.length ∧ ¬ (q < elemAt a r)))) ∧
    ((∃ r, _5_ary_lower_bound a q = some r) ∧
     ∀ r, _5_ary_lower_bound a q = some r →
       _5_ary_contains a q = some (decide (r ≠ a.length ∧ ¬ (q < elemAt a r)))) ∧
    ((∃ r, _6_ary_lower_bound a q = some r) ∧
     ∀ r, _6_ary_lower_bound a q = some r →
       _6_ary_contains a q = some (decide (r ≠ a.length ∧ ¬ (q < elemAt a r)))) := by
  refine ⟨⟨_2_search_total a _, ?_⟩, ⟨_3_search_total a _, ?_⟩,
          ⟨_4_search_total a _, ?_⟩, ⟨_5_search_total a _, ?_⟩,
          ⟨_6_search_total a _, ?_⟩⟩ <;>
    · intro r hr
      have hbool : (!decide (q < elemAt a r)) = decide (elemAt a r ≤ q) := by
        by_cases hlt : q < elemAt a r
        · simp [hlt, not_le.mpr hlt]
        · simp [hlt, le_of_not_lt hlt]
      simp only [_2_ary_contains, _3_ary_contains, _4_ary_contains,
        _5_ary_contains, _6_ary_contains, hr]
      simp [hbool]

/-- Witness for C6 at arity 2 on `[2, 4, 6]`: the lower bound of query 4 is
position 1 and the membership overload returns `decide`-of the claimed
condition (true here). -/
theorem C6_witness :
    _2_ary_lower_bound [2, 4, 6] (4 : Nat) = some 1 ∧
    _2_ary_contains [2, 4, 6] (4 : Nat) =
      some (decide ((1 : Nat) ≠ ([2, 4, 6] : List Nat).length ∧
        ¬ ((4 : Nat) < elemAt [2, 4, 6] 1))) := by
  have hr : _2_ary_lower_bound [2, 4, 6] (4 : Nat) = some 1 := by decide
  exact ⟨hr, (C6_contains_via_lower_bound [2, 4, 6] (4 : Nat)).1.2 1 hr⟩

/-- C7: for every arity Q in {2,3,4,5,6}, two calls to the same entry point
(general search, lower bound, upper bound, or membership) with identical
range contents, identical query and identical predicate return identical
results; the range is an immutable input of every entry point, so a search
leaves it unchanged. -/
theorem C7_deterministic [LinearOrder α] (a b : List α) (p pp : α → Bool)
    (q qq : α) (hab : a = b) (hp : p = pp) (hq : q = qq) :
    (_2_ary_search _2_ary_search_parameters a p =
       _2_ary_search _2_ary_search_parameters b pp ∧
     _3_ary_search _3_ary_search_parameters a p =
       _3_ary_search _3_ary_search_parameters b pp ∧
     _4_ary_search _4_ary_search_parameters a p =
       _4_ary_search _4_ary_search_parameters b pp ∧
     _5_ary_search _5_ary_search_parameters a p =
       _5_ary_search _5_ary_search_parameters b pp ∧
     _6_ary_search _6_ary_search_parameters a p =
       _6_ary_search _6_ary_search_parameters b pp) ∧
    (_2_ary_lower_bound a q = _2_ary_lower_bound b qq ∧
     _3_ary_lower_bound a q = _3_ary_lower_bound b qq ∧
     _4_ary_lower_bound a q = _4_ary_lower_bound b qq ∧
     _5_ary_lower_bound a q = _5_ary_lower_bound b qq ∧
     _6_ary_lower_bound a q = _6_ary_lower_bound b qq) ∧
    (_2_ary_upper_bound a q = _2_ary_upper_bound b qq ∧
     _3_ary_upper_bound a q = _3_ary_upper_bound b qq ∧
     _4_ary_upper_bound a q = _4_ary_upper_bound b qq ∧
     _5_ary_upper_bound a q = _5_ary_upper_bound b qq ∧
     _6_ary_upper_bound a q = _6_ary_upper_bound b qq) ∧
    (_2_ary_contains a q = _2_ary_contains b qq ∧
     _3_ary_contains a q = _3_ary_contains b qq ∧
     _4_ary_contains a q = _4_ary_contains b qq ∧
     _5_ary_contains a q = _5_ary_contains b qq ∧
     _6_ary_contains a q = _6_ary_contains b qq) := by
  subst hab
  subst hp
  subst hq
  exact ⟨⟨rfl, rfl, rfl, rfl, rfl⟩, ⟨rfl, rfl, rfl, rfl, rfl⟩,
         ⟨rfl, rfl, rfl, rfl, rfl⟩, ⟨rfl, rfl, rfl, rfl, rfl⟩⟩

/-- Witness for C7: two textually separate but equal inputs give the same
results at every entry point. -/
theorem C7_witness :
    ([2, 4, 6] : List Nat) = [2, 4, 6] ∧
    (fun x : Nat => decide (x < 5)) = (fun x : Nat => decide (x < 5)) ∧
    (5 : Nat) = 5 ∧
    _2_ary_search _2_ary_search_parameters [2, 4, 6] (fun x : Nat => decide (x < 5)) =
      _2_ary_search _2_ary_search_parameters [2, 4, 6] (fun x : Nat => decide (x < 5)) ∧
    _6_ary_contains [2, 4, 6] (5 : Nat) = _6_ary_contains [2, 4, 6] (5 : Nat) := by
  have h := C7_deterministic [2, 4, 6] [2, 4, 6] (fun x : Nat => decide (x < 5))
    (fun x : Nat => decide (x < 5)) (5 : Nat) (5 : Nat) rfl rfl rfl
  exact ⟨rfl, rfl, rfl, h.1.1, h.2.2.2.2.2.2.2⟩

/-- C8: with the default thresholds (2·Q) every `_Q_ary_search` call
terminates on every range and predicate: each narrowing iteration strictly
decreases the window length (so fuel `a.length` always suffices and the loop
returns a window), the search always produces a result, and the final linear
scan advances at most `length` positions. -/
theorem C8_termination (a : List α) (p : α → Bool) :
    ((∀ start length, 4 ≤ length → (_2_step a p start length).2 < length) ∧
     (∀ start length, 6 ≤ length → (_3_step a p start length).2 < length) ∧
     (∀ start length, 8 ≤ length → (_4_step a p start length).2 < length) ∧
     (∀ start length, 10 ≤ length → (_5_step a p start length).2 < length) ∧
     (∀ start length, 12 ≤ length → (_6_step a p start length).2 < length)) ∧
    ((∀ fuel start length, length ≤ fuel →
        ∃ s l, _2_loop 4 a p fuel start length = some (s, l)) ∧
     (∀ fuel start length, length ≤ fuel →
        ∃ s l, _3_loop 6 a p fuel start length = some (s, l)) ∧
     (∀ fuel start length, length ≤ fuel →
        ∃ s l, _4_loop 8 a p fuel start length = some (s, l)) ∧
     (∀ fuel start length, length ≤ fuel →
        ∃ s l, _5_loop 10 a p fuel start length = some (s, l)) ∧
     (∀ fuel start length, length ≤ fuel →
        ∃ s l, _6_loop 12 a p fuel start length = some (s, l))) ∧
    ((∃ r, _2_ary_search _2_ary_search_parameters a p = some r) ∧
     (∃ r, _3_ary_search _3_ary_search_parameters a p = some r) ∧
     (∃ r, _4_ary_search _4_ary_search_parameters a p = some r) ∧
     (∃ r, _5_ary_search _5_ary_search_parameters a p = some r) ∧
     (∃ r, _6_ary_search _6_ary_search_parameters a p = some r)) ∧
    (∀ length start, start ≤ linearScan a p start length ∧
       linearScan a p start length ≤ start + length) := by
  refine ⟨⟨?_, ?_, ?_, ?_, ?_⟩, ⟨?_, ?_, ?_, ?_, ?_⟩,
          ⟨_2_search_total a p, _3_search_total a p, _4_search_total a p,
           _5_search_total a p, _6_search_total a p⟩,
          linearScan_bounds a p⟩
  · intro start length h
    exact (_2_step_window a p start length h).2.2
  · intro start length h
    exact (_3_step_window a p start length h).2.2
  · intro start length h
    exact (_4_step_window a p start length h).2.2
  · intro start length h
    exact (_5_step_window a p start length h).2.2
  · intro start length h
    exact (_6_step_window a p start length h).2.2
  · intro fuel start length h
    obtain ⟨s, l, heq, hw⟩ := _2_loop_total a p fuel start length h
    exact ⟨s, l, heq⟩
  · intro fuel start length h
    obtain ⟨s, l, heq, hw⟩ := _3_loop_total a p fuel start length h
    exact ⟨s, l, heq⟩
  · intro fuel start length h
    obtain ⟨s, l, heq, hw⟩ := _4_loop_total a p fuel start length h
    exact ⟨s, l, heq⟩
  · intro fuel start length h
    obtain ⟨s, l, heq, hw⟩ := _5_loop_total a p fuel start length h
    exact ⟨s, l, heq⟩
  · intro fuel start length h
    obtain ⟨s, l, heq, hw⟩ := _6_loop_total a p fuel start length h
    exact ⟨s, l, heq⟩

/-- Witness for C8 on a 13-element unsorted range (termination needs no
sortedness): one step from window length 13 strictly shrinks it, and the
arity-2 search produces a result. -/
theorem C8_witness :
    ((4 : Nat) ≤ 13 ∧
     (_2_step [9, 1, 8, 2, 7, 3, 6, 4, 5, 0, 9, 1, 8] (fun x : Nat => decide (x < 5)) 0 13).2 < 13) ∧
    ((13 : Nat) ≤ 13 ∧
     ∃ s l, _2_loop 4 [9, 1, 8, 2, 7, 3, 6, 4, 5, 0, 9, 1, 8]
       (fun x : Nat => decide (x < 5)) 13 0 13 = some (s, l)) ∧
    ∃ r, _2_ary_search _2_ary_search_parameters
      [9, 1, 8, 2, 7, 3, 6, 4, 5, 0, 9, 1, 8] (fun x : Nat => decide (x < 5)) = some r := by
  have h := C8_termination [9, 1, 8, 2, 7, 3, 6, 4, 5, 0, 9, 1, 8]
    (fun x : Nat => decide (x < 5))
  exact ⟨⟨by decide, h.1.1 0 13 (by decide)⟩,
         ⟨by decide, h.2.1.1 13 0 13 (by decide)⟩, h.2.2.1.1⟩

/-- C9: every element access of `_Q_ary_search` (with default thresholds) is
in bounds: each probe dereferenced by a narrowing step lies strictly inside
the active window, each linear-scan dereference lies inside the final
window, and hence every position in the complete read trace of a call lies
inside `[0, a.length)`. -/
theorem C9_reads_in_bounds (a : List α) (p : α → Bool) :
    ((∀ start length i, 4 ≤ length → i ∈ _2_stepReads a p start length →
        start < i ∧ i < start + length) ∧
     (∀ start length i, 6 ≤ length → i ∈ _3_stepReads a p start length →
        start < i ∧ i < start + length) ∧
     (∀ start length i, 8 ≤ length → i ∈ _4_stepReads a p start length →
        start < i ∧ i < start + length) ∧
     (∀ start length i, 10 ≤ length → i ∈ _5_stepReads a p start length →
        start < i ∧ i < start + length) ∧
     (∀ start length i, 12 ≤ length → i ∈ _6_stepReads a p start length →
        start < i ∧ i < start + length)) ∧
    (∀ length start i, i ∈ scanReads a p start length →
       start ≤ i ∧ i < start + length) ∧
    ((∀ i, i ∈ _2_searchReads _2_ary_search_parameters a p → i < a.length) ∧
     (∀ i, i ∈ _3_searchReads _3_ary_search_parameters a p → i < a.length) ∧
     (∀ i, i ∈ _4_searchReads _4_ary_search_parameters a p → i < a.length) ∧
     (∀ i, i ∈ _5_searchReads _5_ary_search_parameters a p → i < a.length) ∧
     (∀ i, i ∈ _6_searchReads _6_ary_search_parameters a p → i < a.length)) :=
  ⟨⟨fun start length i h hi => _2_stepReads_mem a p start length i h hi,
    fun start length i h hi => _3_stepReads_mem a p start length i h hi,
    fun start length i h hi => _4_stepReads_mem a p start length i h hi,
    fun start length i h hi => _5_stepReads_mem a p start length i h hi,
    fun start length i h hi => _6_stepReads_mem a p start length i h hi⟩,
   fun length start i hi => scanReads_mem a p length start i hi,
   ⟨fun i hi => _2_searchReads_mem a p i hi,
    fun i hi => _3_searchReads_mem a p i hi,
    fun i hi => _4_searchReads_mem a p i hi,
    fun i hi => _5_searchReads_mem a p i hi,
    fun i hi => _6_searchReads_mem a p i hi⟩⟩

/-- Witness for C9 on the 13-element test array at arity 6 (length 13 ≥ 12,
so the cascade runs): probe position 2 read by the first step lies strictly
inside the window {0, 13}, and it also occurs in the complete read trace of
the call, hence is below the length 13. -/
theorem C9_witness :
    ((12 : Nat) ≤ 13 ∧
     2 ∈ _6_stepReads [2, 4, 6, 7, 12, 13, 16, 19, 23, 24, 27, 32, 36]
       (fun x : Nat => decide (x < 19)) 0 13 ∧
     0 < 2 ∧ 2 < 0 + 13) ∧
    (2 ∈ _6_searchReads _6_ary_search_parameters
       [2, 4, 6, 7, 12, 13, 16, 19, 23, 24, 27, 32, 36]
       (fun x : Nat => decide (x < 19)) ∧
     2 < ([2, 4, 6, 7, 12, 13, 16, 19, 23, 24, 27, 32, 36] : List Nat).length) := by
  have h := C9_reads_in_bounds [2, 4, 6, 7, 12, 13, 16, 19, 23, 24, 27, 32, 36]
    (fun x : Nat => decide (x < 19))
  have hm : 2 ∈ _6_stepReads [2, 4, 6, 7, 12, 13, 16, 19, 23, 24, 27, 32, 36]
      (fun x : Nat => decide (x < 19)) 0 13 := by decide
  have hm2 : 2 ∈ _6_searchReads _6_ary_search_parameters
      [2, 4, 6, 7, 12, 13, 16, 19, 23, 24, 27, 32, 36]
      (fun x : Nat => decide (x < 19)) := by decide
  have hb := h.1.2.2.2.2 0 13 2 (by decide) hm
  exact ⟨⟨by decide, hm, hb.1, hb.2⟩, ⟨hm2, h.2.2.2.2.2.2 2 hm2⟩⟩

/-- C10: for every arity Q in {2,3,4,5,6}, every sorted range and every
query, the positions returned satisfy
begin ≤ lower_bound ≤ upper_bound ≤ end: there are bl ≤ bu ≤ a.length such
that every `_Q_ary_lower_bound` returns bl and every `_Q_ary_upper_bound`
returns bu. -/
theorem C10_lower_le_upper [LinearOrder α] (a : List α) (q : α)
    (hs : SortedRange a) :
    ∃ bl bu, 0 ≤ bl ∧ bl ≤ bu ∧ bu ≤ a.length ∧
      (_2_ary_lower_bound a q = some bl ∧
       _3_ary_lower_bound a q = some bl ∧
       _4_ary_lower_bound a q = some bl ∧
       _5_ary_lower_bound a q = some bl ∧
       _6_ary_lower_bound a q = some bl) ∧
      (_2_ary_upper_bound a q = some bu ∧
       _3_ary_upper_bound a q = some bu ∧
       _4_ary_upper_bound a q = some bu ∧
       _5_ary_upper_bound a q = some bu ∧
       _6_ary_upper_bound a q = some bu) := by
  have hl := partitioned_lt_of_sorted a q hs
  have hu := partitioned_le_of_sorted a q hs
  refine ⟨boundary (fun x => decide (x < q)) a, boundary (fun x => decide (x ≤ q)) a,
    Nat.zero_le _, ?_, boundary_le_length _ a,
    ⟨_2_search_eq a _ hl, _3_search_eq a _ hl, _4_search_eq a _ hl,
     _5_search_eq a _ hl, _6_search_eq a _ hl⟩,
    ⟨_2_search_eq a _ hu, _3_search_eq a _ hu, _4_search_eq a _ hu,
     _5_search_eq a _ hu, _6_search_eq a _ hu⟩⟩
  refine boundary_mono _ _ (fun x hx => ?_) a
  simp only [decide_eq_true_eq] at hx ⊢
  exact le_of_lt hx

/-- Witness for C10 on the fragmented test sequence with query 7:
bl = 3 ≤ bu = 7 ≤ 13. -/
theorem C10_witness :
    SortedRange [3, 3, 3, 7, 7, 7, 7, 12, 12, 16, 16, 16, 16] ∧
    ∃ bl bu, 0 ≤ bl ∧ bl ≤ bu ∧
      bu ≤ ([3, 3, 3, 7, 7, 7, 7, 12, 12, 16, 16, 16, 16] : List Nat).length ∧
      (_2_ary_lower_bound [3, 3, 3, 7, 7, 7, 7, 12, 12, 16, 16, 16, 16] (7 : Nat) = some bl ∧
       _3_ary_lower_bound [3, 3, 3, 7, 7, 7, 7, 12, 12, 16, 16, 16, 16] (7 : Nat) = some bl ∧
       _4_ary_lower_bound [3, 3, 3, 7, 7, 7, 7, 12, 12, 16, 16, 16, 16] (7 : Nat) = some bl ∧
       _5_ary_lower_bound [3, 3, 3, 7, 7, 7, 7, 12, 12, 16, 16, 16, 16] (7 : Nat) = some bl ∧
       _6_ary_lower_bound [3, 3, 3, 7, 7, 7, 7, 12, 12, 16, 16, 16, 16] (7 : Nat) = some bl) ∧
      (_2_ary_upper_bound [3, 3, 3, 7, 7, 7, 7, 12, 12, 16, 16, 16, 16] (7 : Nat) = some bu ∧
       _3_ary_upper_bound [3, 3, 3, 7, 7, 7, 7, 12, 12, 16, 16, 16, 16] (7 : Nat) = some bu ∧
       _4_ary_upper_bound [3, 3, 3, 7, 7, 7, 7, 12, 12, 16, 16, 16, 16] (7 : Nat) = some bu ∧
       _5_ary_upper_bound [3, 3, 3, 7, 7, 7, 7, 12, 12, 16, 16, 16, 16] (7 : Nat) = some bu ∧
       _6_ary_upper_bound [3, 3, 3, 7, 7, 7, 7, 12, 12, 16, 16, 16, 16] (7 : Nat) = some bu) := by
  have hs : SortedRange [3, 3, 3, 7, 7, 7, 7, 12, 12, 16, 16, 16, 16] := by decide
  exact ⟨hs, C10_lower_le_upper [3, 3, 3, 7, 7, 7, 7, 12, 12, 16, 16, 16, 16] (7 : Nat) hs⟩

end QAry
